import Mathlib

set_option maxRecDepth 8000
set_option linter.constructorNameAsVariable false

unseal Rat.add Rat.mul Rat.inv Rat.sub Rat.ofScientific

/-!
Verification development for the OpenVDB grid-transformer core: the affine
builder and matrix decomposer, the interpolation samplers, the grid
transformer with its sparse-tile fast path, and resample-to-match.

The repository provides the unit test `TestGridTransformer.cc`; the production
code it exercises (`openvdb/tools/GridTransformer.h`) is modelled here from
the specification.  The model is an idealized exact-arithmetic embedding:
`double` becomes `ℚ`, machine integers become `ℤ`, and grids become sparse
region lists over integer coordinates.
-/

/-- A continuous (fractional) index-space coordinate, modelled exactly. -/
abbrev Vec3 := ℚ × ℚ × ℚ

/-- An integer voxel coordinate. -/
abbrev Coord := ℤ × ℤ × ℤ

/-- Round half away from zero, the rounding used by `Coord::round` /
`std::round` for continuous-to-voxel conversion. -/
def roundQ (q : ℚ) : ℤ :=
  if q < 0 then -Int.floor (-q + 1/2) else Int.floor (q + 1/2)

/-- Componentwise round of a fractional coordinate to a voxel coordinate. -/
def roundV (v : Vec3) : Coord := (roundQ v.1, roundQ v.2.1, roundQ v.2.2)

/-- Componentwise floor. -/
def floorV (v : Vec3) : Coord := (Int.floor v.1, Int.floor v.2.1, Int.floor v.2.2)

/-- Componentwise ceiling. -/
def ceilV (v : Vec3) : Coord := (Int.ceil v.1, Int.ceil v.2.1, Int.ceil v.2.2)

/-- Embed a voxel coordinate into fractional index space. -/
def c2v (c : Coord) : Vec3 := ((c.1 : ℚ), (c.2.1 : ℚ), (c.2.2 : ℚ))

/-- Kernel-computable minimum on the integers. -/
def minI (a b : ℤ) : ℤ := if a ≤ b then a else b

/-- Kernel-computable maximum on the integers. -/
def maxI (a b : ℤ) : ℤ := if a ≤ b then b else a

/-- Kernel-computable minimum on the rationals. -/
def minQ (a b : ℚ) : ℚ := if a ≤ b then a else b

/-- Kernel-computable maximum on the rationals. -/
def maxQ (a b : ℚ) : ℚ := if a ≤ b then b else a

/-- Componentwise minimum of two fractional coordinates (`minComponent`). -/
def minV (a b : Vec3) : Vec3 := (minQ a.1 b.1, minQ a.2.1 b.2.1, minQ a.2.2 b.2.2)

/-- Componentwise maximum of two fractional coordinates (`maxComponent`). -/
def maxV (a b : Vec3) : Vec3 := (maxQ a.1 b.1, maxQ a.2.1 b.2.1, maxQ a.2.2 b.2.2)

/-- Componentwise addition of an integer offset to a voxel coordinate. -/
def addC (c : Coord) (n : ℤ) : Coord := (c.1 + n, c.2.1 + n, c.2.2 + n)

/-- A 3x3 matrix of exact rationals, row-major.  Row-vector convention:
vectors multiply on the left, `v * M`. -/
structure Mat3 where
  m00 : ℚ
  m01 : ℚ
  m02 : ℚ
  m10 : ℚ
  m11 : ℚ
  m12 : ℚ
  m20 : ℚ
  m21 : ℚ
  m22 : ℚ
deriving DecidableEq

/-- The identity 3x3 matrix. -/
def Mat3.id : Mat3 := ⟨1, 0, 0, 0, 1, 0, 0, 0, 1⟩

/-- Matrix product (row-vector convention: `v * (A.mul B) = (v * A) * B`). -/
def Mat3.mul (a b : Mat3) : Mat3 :=
  ⟨a.m00 * b.m00 + a.m01 * b.m10 + a.m02 * b.m20,
   a.m00 * b.m01 + a.m01 * b.m11 + a.m02 * b.m21,
   a.m00 * b.m02 + a.m01 * b.m12 + a.m02 * b.m22,
   a.m10 * b.m00 + a.m11 * b.m10 + a.m12 * b.m20,
   a.m10 * b.m01 + a.m11 * b.m11 + a.m12 * b.m21,
   a.m10 * b.m02 + a.m11 * b.m12 + a.m12 * b.m22,
   a.m20 * b.m00 + a.m21 * b.m10 + a.m22 * b.m20,
   a.m20 * b.m01 + a.m21 * b.m11 + a.m22 * b.m21,
   a.m20 * b.m02 + a.m21 * b.m12 + a.m22 * b.m22⟩

/-- Row vector times matrix. -/
def Mat3.applyRow (m : Mat3) (v : Vec3) : Vec3 :=
  (v.1 * m.m00 + v.2.1 * m.m10 + v.2.2 * m.m20,
   v.1 * m.m01 + v.2.1 * m.m11 + v.2.2 * m.m21,
   v.1 * m.m02 + v.2.1 * m.m12 + v.2.2 * m.m22)

/-- Determinant. -/
def Mat3.det (m : Mat3) : ℚ :=
  m.m00 * (m.m11 * m.m22 - m.m12 * m.m21)
    - m.m01 * (m.m10 * m.m22 - m.m12 * m.m20)
    + m.m02 * (m.m10 * m.m21 - m.m11 * m.m20)

/-- Transpose. -/
def Mat3.transpose (m : Mat3) : Mat3 :=
  ⟨m.m00, m.m10, m.m20, m.m01, m.m11, m.m21, m.m02, m.m12, m.m22⟩

/-- Matrix inverse via the adjugate; returns junk when the determinant is
zero (callers guard on invertibility, mirroring the configuration-error
precondition of the affine builder). -/
def Mat3.inv (m : Mat3) : Mat3 :=
  let d := m.det
  ⟨(m.m11 * m.m22 - m.m12 * m.m21) / d,
   (m.m02 * m.m21 - m.m01 * m.m22) / d,
   (m.m01 * m.m12 - m.m02 * m.m11) / d,
   (m.m12 * m.m20 - m.m10 * m.m22) / d,
   (m.m00 * m.m22 - m.m02 * m.m20) / d,
   (m.m02 * m.m10 - m.m00 * m.m12) / d,
   (m.m10 * m.m21 - m.m11 * m.m20) / d,
   (m.m01 * m.m20 - m.m00 * m.m21) / d,
   (m.m00 * m.m11 - m.m01 * m.m10) / d⟩

/-- Whether the linear block is diagonal (pure per-axis scale, no rotation
or shear): the conservative condition under which a tile still maps to an
axis-aligned destination region. -/
def Mat3.isDiagonal (m : Mat3) : Bool :=
  m.m01 = 0 && m.m02 = 0 && m.m10 = 0 && m.m12 = 0 && m.m20 = 0 && m.m21 = 0

/-- Diagonal (scale) matrix. -/
def Mat3.scale (s : Vec3) : Mat3 := ⟨s.1, 0, 0, 0, s.2.1, 0, 0, 0, s.2.2⟩

/-- Rotation about the x axis, given the cosine and sine of the angle
(row-vector convention). -/
def Mat3.rotX (c s : ℚ) : Mat3 := ⟨1, 0, 0, 0, c, s, 0, -s, c⟩

/-- Rotation about the y axis, given the cosine and sine of the angle. -/
def Mat3.rotY (c s : ℚ) : Mat3 := ⟨c, 0, -s, 0, 1, 0, s, 0, c⟩

/-- Rotation about the z axis, given the cosine and sine of the angle. -/
def Mat3.rotZ (c s : ℚ) : Mat3 := ⟨c, s, 0, -s, c, 0, 0, 0, 1⟩

/-- An affine index-to-index map: linear block plus translation, applied to
row vectors as `v * lin + tr`. -/
structure Aff where
  lin : Mat3
  tr : Vec3
deriving DecidableEq

/-- Apply an affine map to a fractional coordinate. -/
def Aff.apply (a : Aff) (v : Vec3) : Vec3 :=
  let w := a.lin.applyRow v
  (w.1 + a.tr.1, w.2.1 + a.tr.2.1, w.2.2 + a.tr.2.2)

/-- The identity affine map. -/
def Aff.id : Aff := ⟨Mat3.id, (0, 0, 0)⟩

/-- Composition: `(a.comp b).apply v = b.apply (a.apply v)` (apply `a`
first, matching the row-vector matrix product `A * B`). -/
def Aff.comp (a b : Aff) : Aff :=
  ⟨a.lin.mul b.lin,
   let w := b.lin.applyRow a.tr
   (w.1 + b.tr.1, w.2.1 + b.tr.2.1, w.2.2 + b.tr.2.2)⟩

/-- Inverse affine map (junk linear block when the map is singular). -/
def Aff.inv (a : Aff) : Aff :=
  let li := a.lin.inv
  let w := li.applyRow a.tr
  ⟨li, (-w.1, -w.2.1, -w.2.2)⟩

/-- Pure translation. -/
def Aff.translate (t : Vec3) : Aff := ⟨Mat3.id, t⟩

/-- The affine builder: `M = T(-pivot) * S(scale) * Rx * Ry * Rz * T(pivot)
* T(translate)` with rotations given as (cosine, sine) pairs and composed in
X-then-Y-then-Z order about the pivot, translation applied last. -/
def affBuild (pivot scale : Vec3) (cx sx cy sy cz sz : ℚ) (translate : Vec3) : Aff :=
  (((((Aff.translate (-pivot.1, -pivot.2.1, -pivot.2.2)).comp
      ⟨Mat3.scale scale, (0, 0, 0)⟩).comp
      ⟨Mat3.rotX cx sx, (0, 0, 0)⟩).comp
      ⟨(Mat3.rotY cy sy).mul (Mat3.rotZ cz sz), (0, 0, 0)⟩).comp
      (Aff.translate pivot)).comp
      (Aff.translate translate)

/-- An inclusive axis-aligned integer bounding box. -/
structure CoordBBox where
  lo : Coord
  hi : Coord
deriving DecidableEq

/-- Box membership, componentwise inclusive. -/
def CoordBBox.mem (b : CoordBBox) (c : Coord) : Bool :=
  b.lo.1 ≤ c.1 && c.1 ≤ b.hi.1 && b.lo.2.1 ≤ c.2.1 && c.2.1 ≤ b.hi.2.1 &&
    b.lo.2.2 ≤ c.2.2 && c.2.2 ≤ b.hi.2.2

/-- The finite set of voxel coordinates inside a box. -/
def CoordBBox.cells (b : CoordBBox) : Finset Coord :=
  Finset.Icc b.lo.1 b.hi.1 ×ˢ (Finset.Icc b.lo.2.1 b.hi.2.1 ×ˢ Finset.Icc b.lo.2.2 b.hi.2.2)

/-- The smallest box containing both arguments. -/
def CoordBBox.union (a b : CoordBBox) : CoordBBox :=
  ⟨(minI a.lo.1 b.lo.1, minI a.lo.2.1 b.lo.2.1, minI a.lo.2.2 b.lo.2.2),
   (maxI a.hi.1 b.hi.1, maxI a.hi.2.1 b.hi.2.1, maxI a.hi.2.2 b.hi.2.2)⟩

/-- The tight bounding box of a nonempty finite set of coordinates
(componentwise min and max). -/
def setBBox (s : Finset Coord) (h : s.Nonempty) : CoordBBox :=
  ⟨(s.inf' h (fun c => c.1), s.inf' h (fun c => c.2.1), s.inf' h (fun c => c.2.2)),
   (s.sup' h (fun c => c.1), s.sup' h (fun c => c.2.1), s.sup' h (fun c => c.2.2))⟩

/-- A storage region of a sparse grid: either a maximal constant tile
(one value and one active flag over a box) or a single voxel. -/
inductive Region (V : Type) where
  | uniform (b : CoordBBox) (v : V) (a : Bool)
  | voxel (c : Coord) (v : V) (a : Bool)
deriving DecidableEq

/-- The coordinate box a region occupies. -/
def Region.box {V : Type} : Region V → CoordBBox
  | .uniform b _ _ => b
  | .voxel c _ _ => ⟨c, c⟩

/-- The region's stored value. -/
def Region.value {V : Type} : Region V → V
  | .uniform _ v _ => v
  | .voxel _ v _ => v

/-- The region's active flag. -/
def Region.active {V : Type} : Region V → Bool
  | .uniform _ _ a => a
  | .voxel _ _ a => a

/-- Whether the region is a constant tile. -/
def Region.isUniform {V : Type} : Region V → Bool
  | .uniform _ _ _ => true
  | .voxel _ _ _ => false

/-- Whether the region covers a coordinate. -/
def Region.contains {V : Type} (r : Region V) (c : Coord) : Bool :=
  r.box.mem c

/-- A sparse source grid: a background value plus a list of regions, in
write order (a later region overrides an earlier one where they overlap). -/
structure SGrid (V : Type) where
  bg : V
  regions : List (Region V)

/-- Look up the region that decides a coordinate (the most recently
written one), if any. -/
def SGrid.lookup {V : Type} (g : SGrid V) (c : Coord) : Option (Region V) :=
  g.regions.reverse.find? (fun r => r.contains c)

/-- The stored value at a coordinate (background where no region covers). -/
def SGrid.val {V : Type} (g : SGrid V) (c : Coord) : V :=
  ((g.lookup c).map Region.value).getD g.bg

/-- The active flag at a coordinate. -/
def SGrid.on {V : Type} (g : SGrid V) (c : Coord) : Bool :=
  ((g.lookup c).map Region.active).getD false

/-- Fold a region list into a box containing every region, if any. -/
def hullFold {V : Type} : List (Region V) → Option CoordBBox
  | [] => none
  | r :: rest =>
    match hullFold rest with
    | none => some r.box
    | some b => some (b.union r.box)

/-- A box guaranteed to contain every region (hence every active voxel),
if any region exists. -/
def SGrid.hull {V : Type} (g : SGrid V) : Option CoordBBox :=
  hullFold g.regions

/-- The set of active voxels. -/
def SGrid.activeSet {V : Type} (g : SGrid V) : Finset Coord :=
  match g.hull with
  | none => ∅
  | some b => b.cells.filter (fun c => g.on c = true)

/-- `activeVoxelCount`. -/
def SGrid.activeCount {V : Type} (g : SGrid V) : ℕ := g.activeSet.card

/-- `evalActiveVoxelBoundingBox`: the tight bounding box of the active
voxels, or `none` when there are none. -/
def SGrid.activeBBox {V : Type} (g : SGrid V) : Option CoordBBox :=
  if h : g.activeSet.Nonempty then some (setBBox g.activeSet h) else none

/-- Well-formedness of the storage view: every region's box is proper
(non-empty) and regions are pairwise disjoint (real sparse-tree storage
never stores two overlapping or degenerate constant regions). -/
def SGrid.WF {V : Type} (g : SGrid V) : Prop :=
  (∀ r ∈ g.regions, r.box.lo.1 ≤ r.box.hi.1 ∧ r.box.lo.2.1 ≤ r.box.hi.2.1 ∧
    r.box.lo.2.2 ≤ r.box.hi.2.2) ∧
  g.regions.Pairwise (fun r1 r2 =>
    ∀ c : Coord, ¬(r1.contains c = true ∧ r2.contains c = true))

/-- Point (nearest-neighbour) sampler, stencil radius 0: round the
continuous coordinate to the nearest cell and return that cell's stored
value and active flag verbatim. -/
def pointSample {V : Type} (val : Coord → V) (act : Coord → Bool) (p : Vec3) : V × Bool :=
  (val (roundV p), act (roundV p))

/-- The eight integer corners of the unit cell containing `p`, with their
trilinear weights. -/
def boxStencil (p : Vec3) : List (Coord × ℚ) :=
  let f := floorV p
  let ux := p.1 - (f.1 : ℚ)
  let uy := p.2.1 - (f.2.1 : ℚ)
  let uz := p.2.2 - (f.2.2 : ℚ)
  [((f.1, f.2.1, f.2.2), (1 - ux) * (1 - uy) * (1 - uz)),
   ((f.1 + 1, f.2.1, f.2.2), ux * (1 - uy) * (1 - uz)),
   ((f.1, f.2.1 + 1, f.2.2), (1 - ux) * uy * (1 - uz)),
   ((f.1 + 1, f.2.1 + 1, f.2.2), ux * uy * (1 - uz)),
   ((f.1, f.2.1, f.2.2 + 1), (1 - ux) * (1 - uy) * uz),
   ((f.1 + 1, f.2.1, f.2.2 + 1), ux * (1 - uy) * uz),
   ((f.1, f.2.1 + 1, f.2.2 + 1), (1 - ux) * uy * uz),
   ((f.1 + 1, f.2.1 + 1, f.2.2 + 1), ux * uy * uz)]

/-- Box (trilinear) sampler, stencil radius 1: blend the 8 surrounding
cells; the active flag is the OR of the flags of the whole stencil (the
stencil-wide rule is what the unit test's expected output topology
requires of the real samplers). -/
def boxSample {V : Type} [AddCommMonoid V] [Module ℚ V]
    (val : Coord → V) (act : Coord → Bool) (p : Vec3) : V × Bool :=
  let st := boxStencil p
  (st.foldr (fun cw acc => cw.2 • val cw.1 + acc) 0,
   st.any (fun cw => act cw.1))

/-- The 27 cells of the triquadratic stencil around the floor cell, with
their per-axis quadratic weights: at fractional offset `u` the taps at
-1, 0, +1 weigh (u^2-u)/2, 1-u^2 and (u^2+u)/2. -/
def quadStencil (p : Vec3) : List (Coord × ℚ) :=
  let f := floorV p
  let ux := p.1 - (f.1 : ℚ)
  let uy := p.2.1 - (f.2.1 : ℚ)
  let uz := p.2.2 - (f.2.2 : ℚ)
  let wxm := (ux * ux - ux) / 2
  let wx0 := 1 - ux * ux
  let wxp := (ux * ux + ux) / 2
  let wym := (uy * uy - uy) / 2
  let wy0 := 1 - uy * uy
  let wyp := (uy * uy + uy) / 2
  let wzm := (uz * uz - uz) / 2
  let wz0 := 1 - uz * uz
  let wzp := (uz * uz + uz) / 2
  [((f.1 - 1, f.2.1 - 1, f.2.2 - 1), wxm * wym * wzm),
   ((f.1 - 1, f.2.1 - 1, f.2.2), wxm * wym * wz0),
   ((f.1 - 1, f.2.1 - 1, f.2.2 + 1), wxm * wym * wzp),
   ((f.1 - 1, f.2.1, f.2.2 - 1), wxm * wy0 * wzm),
   ((f.1 - 1, f.2.1, f.2.2), wxm * wy0 * wz0),
   ((f.1 - 1, f.2.1, f.2.2 + 1), wxm * wy0 * wzp),
   ((f.1 - 1, f.2.1 + 1, f.2.2 - 1), wxm * wyp * wzm),
   ((f.1 - 1, f.2.1 + 1, f.2.2), wxm * wyp * wz0),
   ((f.1 - 1, f.2.1 + 1, f.2.2 + 1), wxm * wyp * wzp),
   ((f.1, f.2.1 - 1, f.2.2 - 1), wx0 * wym * wzm),
   ((f.1, f.2.1 - 1, f.2.2), wx0 * wym * wz0),
   ((f.1, f.2.1 - 1, f.2.2 + 1), wx0 * wym * wzp),
   ((f.1, f.2.1, f.2.2 - 1), wx0 * wy0 * wzm),
   ((f.1, f.2.1, f.2.2), wx0 * wy0 * wz0),
   ((f.1, f.2.1, f.2.2 + 1), wx0 * wy0 * wzp),
   ((f.1, f.2.1 + 1, f.2.2 - 1), wx0 * wyp * wzm),
   ((f.1, f.2.1 + 1, f.2.2), wx0 * wyp * wz0),
   ((f.1, f.2.1 + 1, f.2.2 + 1), wx0 * wyp * wzp),
   ((f.1 + 1, f.2.1 - 1, f.2.2 - 1), wxp * wym * wzm),
   ((f.1 + 1, f.2.1 - 1, f.2.2), wxp * wym * wz0),
   ((f.1 + 1, f.2.1 - 1, f.2.2 + 1), wxp * wym * wzp),
   ((f.1 + 1, f.2.1, f.2.2 - 1), wxp * wy0 * wzm),
   ((f.1 + 1, f.2.1, f.2.2), wxp * wy0 * wz0),
   ((f.1 + 1, f.2.1, f.2.2 + 1), wxp * wy0 * wzp),
   ((f.1 + 1, f.2.1 + 1, f.2.2 - 1), wxp * wyp * wzm),
   ((f.1 + 1, f.2.1 + 1, f.2.2), wxp * wyp * wz0),
   ((f.1 + 1, f.2.1 + 1, f.2.2 + 1), wxp * wyp * wzp)]

/-- Quadratic (triquadratic) sampler, stencil radius 2: blend the 3x3x3
neighbourhood; active-flag rule mirrors the box sampler (OR over the whole
stencil). -/
def quadSample {V : Type} [AddCommMonoid V] [Module ℚ V]
    (val : Coord → V) (act : Coord → Bool) (p : Vec3) : V × Bool :=
  let st := quadStencil p
  (st.foldr (fun cw acc => cw.2 • val cw.1 + acc) 0,
   st.any (fun cw => act cw.1))

/-- Integer-valued box sampler: blended arithmetic in ℚ, converted back by
rounding (the sampler family is type-generic; integers round the blend). -/
def intBoxSample (val : Coord → ℤ) (act : Coord → Bool) (p : Vec3) : ℤ × Bool :=
  let r := boxSample (fun c => (val c : ℚ)) act p
  (roundQ r.1, r.2)

/-- A sampler is support-local with radius `r` when its result at `p` is
determined by cells within `r + 1` of `p` in every component, and it maps a
constant, uniformly-flagged neighbourhood to that value and flag. -/
def SupportLocal {V : Type} (sample : (Coord → V) → (Coord → Bool) → Vec3 → V × Bool)
    (r : ℕ) : Prop :=
  ∀ (val : Coord → V) (act : Coord → Bool) (p : Vec3) (v : V) (a : Bool),
    (∀ c : Coord,
      |((c.1 : ℚ) - p.1)| ≤ (r : ℚ) + 1 → |((c.2.1 : ℚ) - p.2.1)| ≤ (r : ℚ) + 1 →
      |((c.2.2 : ℚ) - p.2.2)| ≤ (r : ℚ) + 1 → val c = v ∧ act c = a) →
    sample val act p = (v, a)

/-- A destination grid, described semantically: a background value, the
per-voxel value and active-flag functions, and the box outside which the
transformer never wrote (so everything there is background/inactive). -/
structure DGrid (V : Type) where
  bg : V
  val : Coord → V
  act : Coord → Bool
  box : CoordBBox

/-- The set of active voxels of a destination grid. -/
def DGrid.activeSet {V : Type} (g : DGrid V) : Finset Coord :=
  g.box.cells.filter (fun c => g.act c = true)

/-- `activeVoxelCount` of a destination grid. -/
def DGrid.activeCount {V : Type} (g : DGrid V) : ℕ := g.activeSet.card

/-- `evalActiveVoxelBoundingBox` of a destination grid. -/
def DGrid.activeBBox {V : Type} (g : DGrid V) : Option CoordBBox :=
  if h : g.activeSet.Nonempty then some (setBBox g.activeSet h) else none

/-- `evalActiveVoxelDim`: the extent of the active bounding box. -/
def DGrid.activeDim {V : Type} (g : DGrid V) : Option Coord :=
  g.activeBBox.map (fun b =>
    (b.hi.1 - b.lo.1 + 1, b.hi.2.1 - b.lo.2.1 + 1, b.hi.2.2 - b.lo.2.2 + 1))

/-- The axis-aligned destination region a source tile maps to under the
forward map (meaningful when the linear block is diagonal): the box spanned
by the rounded images of the tile's extreme corners. -/
def mappedBox (fwd : Aff) (b : CoordBBox) : CoordBBox :=
  let p := roundV (fwd.apply (c2v b.lo))
  let q := roundV (fwd.apply (c2v b.hi))
  ⟨(minI p.1 q.1, minI p.2.1 q.2.1, minI p.2.2 q.2.2),
   (maxI p.1 q.1, maxI p.2.1 q.2.1, maxI p.2.2 q.2.2)⟩

/-- The fractional images of the 8 corners of an integer box under an
affine map. -/
def boxCornersQ (fwd : Aff) (b : CoordBBox) : List Vec3 :=
  (List.range 8).map (fun j =>
    fwd.apply
      (if j % 2 = 1 then (b.hi.1 : ℚ) else (b.lo.1 : ℚ),
       if j / 2 % 2 = 1 then (b.hi.2.1 : ℚ) else (b.lo.2.1 : ℚ),
       if j / 4 = 1 then (b.hi.2.2 : ℚ) else (b.lo.2.2 : ℚ)))

/-- The region of destination index space the transformer writes: transform
the 8 corners of the source's active bounding box, take the componentwise
min/max, and dilate every face by the sampler's stencil radius plus one
voxel of nearest-cell rounding support. -/
def dilatedBox (fwd : Aff) (r : ℕ) (b : CoordBBox) : CoordBBox :=
  ⟨addC (floorV ((boxCornersQ fwd b).foldr minV (fwd.apply (c2v b.lo)))) (-(r : ℤ) - 1),
   addC (ceilV ((boxCornersQ fwd b).foldr maxV (fwd.apply (c2v b.lo)))) ((r : ℤ) + 1)⟩

/-- What the transformer stores at one destination cell inside the write
region: the tile fast path copies the value and active flag of a source
tile whose mapped region covers the cell (only when tile transformation is
enabled and the map keeps tiles axis-aligned); otherwise the cell's centre
is pulled back through the inverse map and sampled, and the write is
skipped when the sampler reports the background value and inactive. -/
def writeCell {V : Type} [DecidableEq V] (tt : Bool) (fwd inv : Aff)
    (sample : (Coord → V) → (Coord → Bool) → Vec3 → V × Bool)
    (src : SGrid V) (c : Coord) : Option (V × Bool) :=
  let sampled :=
    let vb := sample src.val src.on (inv.apply (c2v c))
    if vb.2 = false ∧ vb.1 = src.bg then none else some vb
  if tt && fwd.lin.isDiagonal then
    match src.regions.reverse.find?
        (fun r => r.isUniform && (mappedBox fwd r.box).mem c) with
    | some r => some (r.value, r.active)
    | none => sampled
  else sampled

/-- The grid transformer: if the source has no active voxels produce an
empty destination; otherwise write every cell of the dilated destination
box per `writeCell` and leave everything else at background/inactive. -/
def transformGrid {V : Type} [DecidableEq V] (tt : Bool) (fwd inv : Aff) (r : ℕ)
    (sample : (Coord → V) → (Coord → Bool) → Vec3 → V × Bool)
    (src : SGrid V) : DGrid V :=
  match src.activeBBox with
  | none => ⟨src.bg, fun _ => src.bg, fun _ => false, ⟨(0, 0, 0), (-1, -1, -1)⟩⟩
  | some b =>
    let db := dilatedBox fwd r b
    ⟨src.bg,
     fun c => if db.mem c then ((writeCell tt fwd inv sample src c).map Prod.fst).getD src.bg
              else src.bg,
     fun c => if db.mem c then ((writeCell tt fwd inv sample src c).map Prod.snd).getD false
              else false,
     db⟩

/-- A grid together with its index-to-world transform metadata. -/
structure XGrid (V : Type) where
  xform : Aff
  grid : SGrid V

/-- Resample-to-match: compose the source's index-to-world transform with
the inverse of the destination's to get the index-to-index map, delegate to
the grid transformer (tile transformation enabled), and return the
destination's transform unchanged alongside the populated content. -/
def resampleToMatch {V : Type} [DecidableEq V]
    (sample : (Coord → V) → (Coord → Bool) → Vec3 → V × Bool) (r : ℕ)
    (src dst : XGrid V) : Aff × DGrid V :=
  let fwd := src.xform.comp dst.xform.inv
  let inv := dst.xform.comp src.xform.inv
  (dst.xform, transformGrid true fwd inv r sample src.grid)

/-- The destination box exactly as the specification's step 2 words it:
corner images dilated by the sampler's stencil radius only (no rounding
allowance).  Kept separate so the write-confinement claim can be compared
against the region the engine actually writes. -/
def specRadiusBox (fwd : Aff) (r : ℕ) (b : CoordBBox) : CoordBBox :=
  ⟨addC (floorV ((boxCornersQ fwd b).foldr minV (fwd.apply (c2v b.lo)))) (-(r : ℤ)),
   addC (ceilV ((boxCornersQ fwd b).foldr maxV (fwd.apply (c2v b.lo)))) ((r : ℤ))⟩

/-- A 4x4 homogeneous matrix of exact rationals, row-vector convention:
the translation sits in the last row, a perspective component in the last
column. -/
structure Mat4 where
  m00 : ℚ
  m01 : ℚ
  m02 : ℚ
  m03 : ℚ
  m10 : ℚ
  m11 : ℚ
  m12 : ℚ
  m13 : ℚ
  m20 : ℚ
  m21 : ℚ
  m22 : ℚ
  m23 : ℚ
  m30 : ℚ
  m31 : ℚ
  m32 : ℚ
  m33 : ℚ
deriving DecidableEq

/-- The identity 4x4 matrix. -/
def Mat4.identity : Mat4 :=
  ⟨1, 0, 0, 0, 0, 1, 0, 0, 0, 0, 1, 0, 0, 0, 0, 1⟩

/-- The upper-left 3x3 linear block. -/
def Mat4.linear (m : Mat4) : Mat3 :=
  ⟨m.m00, m.m01, m.m02, m.m10, m.m11, m.m12, m.m20, m.m21, m.m22⟩

/-- The translation row. -/
def Mat4.translation (m : Mat4) : Vec3 := (m.m30, m.m31, m.m32)

/-- Assemble an affine 4x4 matrix from a linear block and a translation. -/
def Mat4.ofParts (l : Mat3) (t : Vec3) : Mat4 :=
  ⟨l.m00, l.m01, l.m02, 0, l.m10, l.m11, l.m12, 0,
   l.m20, l.m21, l.m22, 0, t.1, t.2.1, t.2.2, 1⟩

/-- Whether the matrix is affine: the homogeneous (perspective) column is
exactly (0, 0, 0, 1). -/
def Mat4.isAffine (m : Mat4) : Prop :=
  m.m03 = 0 ∧ m.m13 = 0 ∧ m.m23 = 0 ∧ m.m33 = 1

instance (m : Mat4) : Decidable m.isAffine := by
  unfold Mat4.isAffine; infer_instance

/-- Linear-scan integer square root used by the exact rational square
root below (structural recursion so the kernel can evaluate it). -/
def linSqrt (n : ℕ) : ℕ :=
  ((List.range (n + 1)).filter (fun k => k * k ≤ n)).foldr max 0

/-- The exact nonnegative rational square root, when one exists. -/
def ratSqrt (q : ℚ) : Option ℚ :=
  if q < 0 then none
  else
    let r : ℚ := (linSqrt q.num.toNat : ℚ) / (linSqrt q.den : ℚ)
    if r * r = q then some r else none

/-- Squared euclidean length of a vector. -/
def normSq (v : Vec3) : ℚ := v.1 * v.1 + v.2.1 * v.2.1 + v.2.2 * v.2.2

/-- Row `i` of a 3x3 matrix (the image of the `i`-th basis vector under the
row-vector convention). -/
def Mat3.row0 (m : Mat3) : Vec3 := (m.m00, m.m01, m.m02)

/-- Row 1. -/
def Mat3.row1 (m : Mat3) : Vec3 := (m.m10, m.m11, m.m12)

/-- Row 2. -/
def Mat3.row2 (m : Mat3) : Vec3 := (m.m20, m.m21, m.m22)

/-- Build a matrix from rows. -/
def Mat3.ofRows (a b c : Vec3) : Mat3 :=
  ⟨a.1, a.2.1, a.2.2, b.1, b.2.1, b.2.2, c.1, c.2.1, c.2.2⟩

/-- Scalar multiplication of a vector. -/
def smulV (q : ℚ) (v : Vec3) : Vec3 := (q * v.1, q * v.2.1, q * v.2.2)

/-- The decomposed form returned on success: scale, rotation as
(cosine, sine) pairs about X, Y, Z in composition order, and translation. -/
structure Decomposed where
  scale : Vec3
  rx : ℚ × ℚ
  ry : ℚ × ℚ
  rz : ℚ × ℚ
  tr : Vec3
deriving DecidableEq

/-- Rebuild the affine matrix from a decomposed triple, pivot 0, the same
composition order the builder uses: `S * Rx * Ry * Rz` with the translation
set in the last row. -/
def buildMat (d : Decomposed) : Mat4 :=
  Mat4.ofParts
    ((((Mat3.scale d.scale).mul (Mat3.rotX d.rx.1 d.rx.2)).mul
        (Mat3.rotY d.ry.1 d.ry.2)).mul (Mat3.rotZ d.rz.1 d.rz.2))
    d.tr

/-- Final acceptance step of the decomposer: per the spec's round-trip
guarantee, a candidate (scale, rotation, translation) triple is returned
only if rebuilding from it reproduces the input matrix exactly. -/
def decompFinish (m : Mat4) (d : Decomposed) : Option Decomposed :=
  if buildMat d = m then some d else none

/-- Euler-factor extraction step of the decomposer: require the normalized
linear block to be a proper rotation, read the y factor's sine off its
(0,2) entry and take the exact square root for the cosine, then recover the
x and z factors (with the gimbal-lock fallback pinning the z factor), and
hand the candidate to the final acceptance step. -/
def decompEuler (m : Mat4) (t s : Vec3) (r : Mat3) : Option Decomposed :=
  if r.mul r.transpose = Mat3.id ∧ r.transpose.mul r = Mat3.id ∧ r.det = 1 then
    match ratSqrt (1 - (-r.m02) * (-r.m02)) with
    | some cy =>
      if cy = 0 then
        decompFinish m ⟨s, (r.m11, (-r.m02) * r.m10), (cy, -r.m02), (1, 0), t⟩
      else
        decompFinish m ⟨s, (r.m22 / cy, r.m12 / cy), (cy, -r.m02),
          (r.m00 / cy, r.m01 / cy), t⟩
    | none => none
  else none

/-- Scale-extraction step of the decomposer: reject zero scales, give the
determinant's sign to the z scale component only, divide the scale out of
the linear block's rows and continue with Euler extraction. -/
def decompScaled (m : Mat4) (t : Vec3) (l : Mat3) (u0 u1 u2 : ℚ) : Option Decomposed :=
  if u0 = 0 ∨ u1 = 0 ∨ u2 = 0 then none
  else
    decompEuler m t (u0, u1, if l.det < 0 then -u2 else u2)
      (Mat3.ofRows (smulV (1/u0) l.row0) (smulV (1/u1) l.row1)
        (smulV (1/(if l.det < 0 then -u2 else u2)) l.row2))

/-- Modelled from the spec: `openvdb::tools::local_util::decompose`, whose
implementation is not under `src/` (only its unit test is).  Verify the
matrix is affine (perspective column trivial) or fail; extract the
translation from the last row; take scale magnitudes from the exact lengths
of the linear block's basis rows, giving the determinant's sign to the z
component; divide the scale out to get a candidate rotation block; require
it to be a proper rotation; convert it to the X-then-Y-then-Z Euler factors;
and accept only if rebuilding from the extracted parts reproduces the input
matrix exactly, per the spec's round-trip guarantee.  Exact-arithmetic
idealization: square roots that are irrational make the decomposition
report failure rather than return rounded values. -/
def decompose (m : Mat4) : Option Decomposed :=
  if ¬m.isAffine then none
  else
    match ratSqrt (normSq m.linear.row0), ratSqrt (normSq m.linear.row1),
        ratSqrt (normSq m.linear.row2) with
    | some u0, some u1, some u2 => decompScaled m m.translation m.linear u0 u1 u2
    | _, _, _ => none

/-- The resample-to-match test source: a 20x20x20 cube of ones starting at
(5,5,5) on a zero background, identity index-to-world transform. -/
def c4src : SGrid ℚ := ⟨0, [Region.uniform ⟨(5, 5, 5), (24, 24, 24)⟩ 1 true]⟩

/-- The test source with its identity transform. -/
def c4srcX : XGrid ℚ := ⟨Aff.id, c4src⟩

/-- The test destination: empty content, index-to-world transform pre-scaled
by (0.5, 0.5, 1). -/
def c4dstX : XGrid ℚ := ⟨⟨Mat3.scale (1/2, 1/2, 1), (0, 0, 0)⟩, ⟨0, []⟩⟩

/-- The populated destination of the non-trivial resample. -/
def c4out : DGrid ℚ := (resampleToMatch pointSample 0 c4srcX c4dstX).2

/-- The index-to-index map of the non-trivial resample doubles x and y. -/
def c4fwd : Aff := ⟨Mat3.scale (2, 2, 1), (0, 0, 0)⟩

/-- Its inverse halves x and y. -/
def c4inv : Aff := ⟨Mat3.scale (1/2, 1/2, 1), (0, 0, 0)⟩

/-- The topology-preservation test source: the eight corners of a
20x20x20 cube hold the zero value and are active, an interior tile over
(8,8,8)-(15,15,15) holds the value two with a caller-chosen active flag,
and the background is one.  Value-type generic: `z`, `o`, `tw` stand for
zero, one (the background) and two in the grid's value type. -/
def cornerSrc {V : Type} (z o tw : V) (ta : Bool) : SGrid V :=
  ⟨o, [Region.voxel (0, 0, 0) z true, Region.voxel (20, 0, 0) z true,
       Region.voxel (0, 20, 0) z true, Region.voxel (0, 0, 20) z true,
       Region.voxel (20, 0, 20) z true, Region.voxel (0, 20, 20) z true,
       Region.voxel (20, 20, 0) z true, Region.voxel (20, 20, 20) z true,
       Region.uniform ⟨(8, 8, 8), (15, 15, 15)⟩ tw ta]⟩

/-- The destination voxel the test inspects: the rounded affine image of
the tile centre (12,12,12). -/
def c1Center (fwd : Aff) : Coord := roundV (fwd.apply (12, 12, 12))

/-- Whether the transformer marks a destination cell active when it
processes the 8-corner test grid: the active flag of the cell's write
decision (absent writes count as inactive). -/
def c1ActiveWrite {V : Type} [DecidableEq V]
    (sample : (Coord → V) → (Coord → Bool) → Vec3 → V × Bool)
    (fwd inv : Aff) (z o tw : V) (ta : Bool) (c : Coord) : Bool :=
  ((writeCell true fwd inv sample (cornerSrc z o tw ta) c).map Prod.snd).getD false

/-- A concrete test transform for witnesses: non-uniform scale (10, 4, 7.5)
followed by translation (-5, 0, 10). -/
def c1TestFwd : Aff := ⟨Mat3.scale (10, 4, 15/2), (-5, 0, 10)⟩

/-- The inverse of the witness transform. -/
def c1TestInv : Aff := ⟨Mat3.scale (1/10, 1/4, 2/15), (1/2, 0, -4/3)⟩

/-- The eight active corner voxels of the topology-preservation test's
20-cube, as stored in the source grid. -/
def cubeCorners : List Coord :=
  [(0, 0, 0), (20, 0, 0), (0, 20, 0), (0, 0, 20),
   (20, 0, 20), (0, 20, 20), (20, 20, 0), (20, 20, 20)]

/-- A sampler is near-activity-sensitive with reach `d` when an active
source cell strictly within `d` of the sample point in every component
forces the sampled active flag on.  The point sampler has reach 1/2 (it
reads the nearest cell) and the box, triquadratic and integer box samplers
have reach 1 (their stencils always cover the surrounding unit cell). -/
def NearActive {V : Type} (sample : (Coord → V) → (Coord → Bool) → Vec3 → V × Bool)
    (d : ℚ) : Prop :=
  ∀ (val : Coord → V) (act : Coord → Bool) (p : Vec3) (k : Coord),
    act k = true →
    |((k.1 : ℚ) - p.1)| < d → |((k.2.1 : ℚ) - p.2.1)| < d →
    |((k.2.2 : ℚ) - p.2.2)| < d →
    (sample val act p).2 = true

theorem floor_add_half_int (m : ℤ) : Int.floor ((m : ℚ) + 1/2) = m := by
  rw [Int.floor_int_add]
  norm_num [Int.floor_eq_zero_iff]

theorem roundQ_intCast (n : ℤ) : roundQ (n : ℚ) = n := by
  unfold roundQ
  by_cases h : (n : ℚ) < 0
  · rw [if_pos h]
    have e : (-(n : ℚ) + 1/2) = ((-n : ℤ) : ℚ) + 1/2 := by push_cast; ring
    rw [e, floor_add_half_int]
    ring
  · rw [if_neg h]
    exact floor_add_half_int n

theorem roundV_c2v (c : Coord) : roundV (c2v c) = c := by
  unfold roundV c2v
  simp [roundQ_intCast]

theorem abs_roundQ_sub (q : ℚ) : |((roundQ q : ℤ) : ℚ) - q| ≤ 1/2 := by
  unfold roundQ
  rcases lt_or_ge q 0 with h | h
  · rw [if_pos h]
    have h1 : (-q + 1/2) - 1 < (Int.floor (-q + 1/2) : ℚ) := by
      have := Int.sub_one_lt_floor (-q + 1/2)
      linarith
    have h2 : (Int.floor (-q + 1/2) : ℚ) ≤ -q + 1/2 := Int.floor_le _
    rw [abs_le]
    constructor <;> push_cast <;> linarith
  · rw [if_neg (not_lt.mpr h)]
    have h1 : (q + 1/2) - 1 < (Int.floor (q + 1/2) : ℚ) := by
      have := Int.sub_one_lt_floor (q + 1/2)
      linarith
    have h2 : (Int.floor (q + 1/2) : ℚ) ≤ q + 1/2 := Int.floor_le _
    rw [abs_le]
    constructor <;> linarith

theorem le_roundQ_iff_of_nonneg (a : ℤ) (q : ℚ) (h : 0 ≤ q) :
    a ≤ roundQ q ↔ (a : ℚ) ≤ q + 1/2 := by
  unfold roundQ
  rw [if_neg (not_lt.mpr h), Int.le_floor]

theorem roundQ_le_iff_of_nonneg (b : ℤ) (q : ℚ) (h : 0 ≤ q) :
    roundQ q ≤ b ↔ q + 1/2 < (b : ℚ) + 1 := by
  unfold roundQ
  rw [if_neg (not_lt.mpr h)]
  constructor
  · intro hb
    have h1 : q + 1/2 < (Int.floor (q + 1/2) : ℚ) + 1 := Int.lt_floor_add_one _
    have hcast : (Int.floor (q + 1/2) : ℚ) ≤ (b : ℚ) := by exact_mod_cast hb
    linarith
  · intro hb
    have : Int.floor (q + 1/2) < b + 1 := by
      rw [Int.floor_lt]
      push_cast
      linarith
    omega

theorem mem_cells {b : CoordBBox} {c : Coord} :
    c ∈ b.cells ↔ b.mem c = true := by
  unfold CoordBBox.cells CoordBBox.mem
  simp only [Finset.mem_product, Finset.mem_Icc, Bool.and_eq_true, decide_eq_true_eq]
  tauto

theorem cells_nonempty {b : CoordBBox} (h1 : b.lo.1 ≤ b.hi.1) (h2 : b.lo.2.1 ≤ b.hi.2.1)
    (h3 : b.lo.2.2 ≤ b.hi.2.2) : b.cells.Nonempty := by
  refine ⟨b.lo, ?_⟩
  rw [mem_cells]
  unfold CoordBBox.mem
  simp_all

theorem setBBox_eq {s : Finset Coord} (h : s.Nonempty) (lo hi : Coord)
    (hmemlo1 : ∃ c ∈ s, c.1 = lo.1) (hmemlo2 : ∃ c ∈ s, c.2.1 = lo.2.1)
    (hmemlo3 : ∃ c ∈ s, c.2.2 = lo.2.2)
    (hmemhi1 : ∃ c ∈ s, c.1 = hi.1) (hmemhi2 : ∃ c ∈ s, c.2.1 = hi.2.1)
    (hmemhi3 : ∃ c ∈ s, c.2.2 = hi.2.2)
    (hbd : ∀ c ∈ s, lo.1 ≤ c.1 ∧ lo.2.1 ≤ c.2.1 ∧ lo.2.2 ≤ c.2.2 ∧
      c.1 ≤ hi.1 ∧ c.2.1 ≤ hi.2.1 ∧ c.2.2 ≤ hi.2.2) :
    setBBox s h = ⟨lo, hi⟩ := by
  unfold setBBox
  obtain ⟨a1, ha1, he1⟩ := hmemlo1
  obtain ⟨a2, ha2, he2⟩ := hmemlo2
  obtain ⟨a3, ha3, he3⟩ := hmemlo3
  obtain ⟨b1, hb1, hf1⟩ := hmemhi1
  obtain ⟨b2, hb2, hf2⟩ := hmemhi2
  obtain ⟨b3, hb3, hf3⟩ := hmemhi3
  have e1 : s.inf' h (fun c => c.1) = lo.1 :=
    le_antisymm (by rw [← he1]; exact Finset.inf'_le (fun c : Coord => c.1) ha1)
      (Finset.le_inf' h _ (fun c hc => (hbd c hc).1))
  have e2 : s.inf' h (fun c => c.2.1) = lo.2.1 :=
    le_antisymm (by rw [← he2]; exact Finset.inf'_le (fun c : Coord => c.2.1) ha2)
      (Finset.le_inf' h _ (fun c hc => (hbd c hc).2.1))
  have e3 : s.inf' h (fun c => c.2.2) = lo.2.2 :=
    le_antisymm (by rw [← he3]; exact Finset.inf'_le (fun c : Coord => c.2.2) ha3)
      (Finset.le_inf' h _ (fun c hc => (hbd c hc).2.2.1))
  have f1 : s.sup' h (fun c => c.1) = hi.1 :=
    le_antisymm (Finset.sup'_le h _ (fun c hc => (hbd c hc).2.2.2.1))
      (by rw [← hf1]; exact Finset.le_sup' (fun c : Coord => c.1) hb1)
  have f2 : s.sup' h (fun c => c.2.1) = hi.2.1 :=
    le_antisymm (Finset.sup'_le h _ (fun c hc => (hbd c hc).2.2.2.2.1))
      (by rw [← hf2]; exact Finset.le_sup' (fun c : Coord => c.2.1) hb2)
  have f3 : s.sup' h (fun c => c.2.2) = hi.2.2 :=
    le_antisymm (Finset.sup'_le h _ (fun c hc => (hbd c hc).2.2.2.2.2))
      (by rw [← hf3]; exact Finset.le_sup' (fun c : Coord => c.2.2) hb3)
  rw [e1, e2, e3, f1, f2, f3]

theorem cells_card (lo hi : Coord) :
    (CoordBBox.cells ⟨lo, hi⟩).card =
      (hi.1 + 1 - lo.1).toNat * ((hi.2.1 + 1 - lo.2.1).toNat * (hi.2.2 + 1 - lo.2.2).toNat) := by
  unfold CoordBBox.cells
  rw [Finset.card_product, Finset.card_product, Int.card_Icc, Int.card_Icc, Int.card_Icc]

theorem c4src_on (d : Coord) :
    c4src.on d = (CoordBBox.mk (5, 5, 5) (24, 24, 24)).mem d := by
  unfold SGrid.on SGrid.lookup c4src
  simp only [List.reverse_cons, List.reverse_nil, List.nil_append, List.find?]
  unfold Region.contains Region.box
  rcases h : (CoordBBox.mk (5, 5, 5) (24, 24, 24)).mem d <;> simp [h, Region.active]

theorem c4src_val (d : Coord) :
    c4src.val d = if (CoordBBox.mk (5, 5, 5) (24, 24, 24)).mem d then 1 else 0 := by
  unfold SGrid.val SGrid.lookup c4src
  simp only [List.reverse_cons, List.reverse_nil, List.nil_append, List.find?]
  unfold Region.contains Region.box
  rcases h : (CoordBBox.mk (5, 5, 5) (24, 24, 24)).mem d <;> simp [h, Region.value]

theorem setBBox_cells (lo hi : Coord) (h1 : lo.1 ≤ hi.1) (h2 : lo.2.1 ≤ hi.2.1)
    (h3 : lo.2.2 ≤ hi.2.2) (hne : (CoordBBox.mk lo hi).cells.Nonempty) :
    setBBox (CoordBBox.mk lo hi).cells hne = ⟨lo, hi⟩ := by
  have hmem : ∀ c : Coord, c ∈ (CoordBBox.mk lo hi).cells ↔
      (lo.1 ≤ c.1 ∧ c.1 ≤ hi.1 ∧ lo.2.1 ≤ c.2.1 ∧ c.2.1 ≤ hi.2.1 ∧
        lo.2.2 ≤ c.2.2 ∧ c.2.2 ≤ hi.2.2) := by
    intro c
    rw [mem_cells]
    unfold CoordBBox.mem
    simp only [Bool.and_eq_true, decide_eq_true_eq]
    tauto
  apply setBBox_eq
  · exact ⟨lo, (hmem lo).mpr (by omega), rfl⟩
  · exact ⟨lo, (hmem lo).mpr (by omega), rfl⟩
  · exact ⟨lo, (hmem lo).mpr (by omega), rfl⟩
  · exact ⟨hi, (hmem hi).mpr (by omega), rfl⟩
  · exact ⟨hi, (hmem hi).mpr (by omega), rfl⟩
  · exact ⟨hi, (hmem hi).mpr (by omega), rfl⟩
  · intro c hc
    have := (hmem c).mp hc
    omega

theorem sgrid_activeBBox_of_activeSet {V : Type} (g : SGrid V) (lo hi : Coord)
    (h1 : lo.1 ≤ hi.1) (h2 : lo.2.1 ≤ hi.2.1) (h3 : lo.2.2 ≤ hi.2.2)
    (hset : g.activeSet = (CoordBBox.mk lo hi).cells) :
    g.activeBBox = some ⟨lo, hi⟩ := by
  unfold SGrid.activeBBox
  have hne : g.activeSet.Nonempty := by
    rw [hset]
    exact cells_nonempty h1 h2 h3
  rw [dif_pos hne]
  congr 1
  have hne2 : (CoordBBox.mk lo hi).cells.Nonempty := hset ▸ hne
  calc setBBox g.activeSet hne = setBBox (CoordBBox.mk lo hi).cells hne2 := by
        congr 1
    _ = ⟨lo, hi⟩ := setBBox_cells lo hi h1 h2 h3 hne2

theorem dgrid_activeBBox_of_activeSet {V : Type} (g : DGrid V) (lo hi : Coord)
    (h1 : lo.1 ≤ hi.1) (h2 : lo.2.1 ≤ hi.2.1) (h3 : lo.2.2 ≤ hi.2.2)
    (hset : g.activeSet = (CoordBBox.mk lo hi).cells) :
    g.activeBBox = some ⟨lo, hi⟩ := by
  unfold DGrid.activeBBox
  have hne : g.activeSet.Nonempty := by
    rw [hset]
    exact cells_nonempty h1 h2 h3
  rw [dif_pos hne]
  congr 1
  have hne2 : (CoordBBox.mk lo hi).cells.Nonempty := hset ▸ hne
  calc setBBox g.activeSet hne = setBBox (CoordBBox.mk lo hi).cells hne2 := by
        congr 1
    _ = ⟨lo, hi⟩ := setBBox_cells lo hi h1 h2 h3 hne2

theorem c4src_hull : c4src.hull = some ⟨(5, 5, 5), (24, 24, 24)⟩ := by decide

theorem c4src_activeSet :
    c4src.activeSet = (CoordBBox.mk (5, 5, 5) (24, 24, 24)).cells := by
  unfold SGrid.activeSet
  rw [c4src_hull]
  apply Finset.filter_true_of_mem
  intro c hc
  rw [c4src_on, ← mem_cells]
  exact hc

theorem c4src_activeBBox :
    c4src.activeBBox = some ⟨(5, 5, 5), (24, 24, 24)⟩ :=
  sgrid_activeBBox_of_activeSet c4src _ _ (by norm_num) (by norm_num) (by norm_num)
    c4src_activeSet

theorem c4inv_apply (c : Coord) :
    c4inv.apply (c2v c) = ((c.1 : ℚ)/2, (c.2.1 : ℚ)/2, (c.2.2 : ℚ)) := by
  unfold c4inv Aff.apply Mat3.applyRow Mat3.scale c2v
  simp only
  refine Prod.ext ?_ (Prod.ext ?_ ?_) <;> simp <;> ring

theorem c4_writeCell (c : Coord) :
    writeCell true c4fwd c4inv pointSample c4src c =
      if (CoordBBox.mk (10, 10, 5) (48, 48, 24)).mem c then some (1, true)
      else if (CoordBBox.mk (5, 5, 5) (24, 24, 24)).mem
          (roundQ ((c.1 : ℚ)/2), roundQ ((c.2.1 : ℚ)/2), c.2.2) then some (1, true)
      else none := by
  unfold writeCell
  have hdiag : (true && c4fwd.lin.isDiagonal) = true := by decide
  rw [hdiag]
  simp only [if_true]
  have hrev : c4src.regions.reverse = [Region.uniform ⟨(5, 5, 5), (24, 24, 24)⟩ 1 true] := rfl
  rw [hrev]
  have hmap : mappedBox c4fwd ⟨(5, 5, 5), (24, 24, 24)⟩ = ⟨(10, 10, 5), (48, 48, 24)⟩ := by
    decide
  have hsampled : pointSample c4src.val c4src.on (c4inv.apply (c2v c)) =
      (if (CoordBBox.mk (5, 5, 5) (24, 24, 24)).mem
          (roundQ ((c.1 : ℚ)/2), roundQ ((c.2.1 : ℚ)/2), c.2.2) then (1, true)
        else (0, false)) := by
    rw [c4inv_apply]
    unfold pointSample roundV
    simp only [roundQ_intCast]
    rw [c4src_on, c4src_val]
    rcases h : (CoordBBox.mk (5, 5, 5) (24, 24, 24)).mem
        (roundQ ((c.1 : ℚ)/2), roundQ ((c.2.1 : ℚ)/2), c.2.2) <;> simp [h]
  simp only [List.find?]
  unfold Region.isUniform Region.box
  rw [hmap]
  rcases hm : (CoordBBox.mk (10, 10, 5) (48, 48, 24)).mem c with _ | _
  · simp only [Bool.true_and, hm, if_false]
    rw [hsampled]
    rcases h2 : (CoordBBox.mk (5, 5, 5) (24, 24, 24)).mem
        (roundQ ((c.1 : ℚ)/2), roundQ ((c.2.1 : ℚ)/2), c.2.2) <;> simp [h2, c4src]
  · simp only [Bool.true_and, hm, if_true]
    simp [Region.value, Region.active]

theorem mem_iff (b : CoordBBox) (c : Coord) :
    b.mem c = true ↔ (b.lo.1 ≤ c.1 ∧ c.1 ≤ b.hi.1 ∧ b.lo.2.1 ≤ c.2.1 ∧ c.2.1 ≤ b.hi.2.1 ∧
      b.lo.2.2 ≤ c.2.2 ∧ c.2.2 ≤ b.hi.2.2) := by
  unfold CoordBBox.mem
  simp only [Bool.and_eq_true, decide_eq_true_eq]
  tauto

theorem roundHalf_bounds (x : ℤ) (hx : 0 ≤ x) :
    (5 ≤ roundQ ((x : ℚ)/2) ∧ roundQ ((x : ℚ)/2) ≤ 24) ↔ (9 ≤ x ∧ x ≤ 48) := by
  have hq : (0 : ℚ) ≤ (x : ℚ)/2 := by
    apply div_nonneg _ (by norm_num)
    exact_mod_cast hx
  rw [le_roundQ_iff_of_nonneg _ _ hq, roundQ_le_iff_of_nonneg _ _ hq]
  constructor
  · rintro ⟨h1, h2⟩
    constructor
    · have h9 : (9 : ℚ) ≤ (x : ℚ) := by linarith
      exact_mod_cast h9
    · have h49 : (x : ℚ) < 49 := by linarith
      have : x < 49 := by exact_mod_cast h49
      omega
  · rintro ⟨h1, h2⟩
    have g1 : (9 : ℚ) ≤ (x : ℚ) := by exact_mod_cast h1
    have g2 : (x : ℚ) ≤ 48 := by exact_mod_cast h2
    constructor <;> [linarith; linarith]

theorem c4out_eq : c4out = transformGrid true c4fwd c4inv 0 pointSample c4src := by
  unfold c4out resampleToMatch
  simp only
  have h1 : c4srcX.xform.comp c4dstX.xform.inv = c4fwd := by decide
  have h2 : c4dstX.xform.comp c4srcX.xform.inv = c4inv := by decide
  rw [h1, h2]
  rfl

theorem c4_dilated :
    dilatedBox c4fwd 0 ⟨(5, 5, 5), (24, 24, 24)⟩ = ⟨(9, 9, 4), (49, 49, 25)⟩ := by
  decide

theorem c4out_act (c : Coord) :
    c4out.act c = true ↔
      (9 ≤ c.1 ∧ c.1 ≤ 48 ∧ 9 ≤ c.2.1 ∧ c.2.1 ≤ 48 ∧ 5 ≤ c.2.2 ∧ c.2.2 ≤ 24) := by
  rw [c4out_eq]
  unfold transformGrid
  rw [c4src_activeBBox]
  simp only [c4_dilated]
  constructor
  · intro hact
    by_cases hm : (CoordBBox.mk (9, 9, 4) (49, 49, 25)).mem c = true
    · have hmp := (mem_iff _ _).mp hm
      simp only at hmp
      simp only [hm, if_true] at hact
      rw [c4_writeCell] at hact
      by_cases hmm : (CoordBBox.mk (10, 10, 5) (48, 48, 24)).mem c = true
      · have h2 := (mem_iff _ _).mp hmm
        simp only at h2
        omega
      · rw [Bool.not_eq_true] at hmm
        simp only [hmm, Bool.false_eq_true, if_false] at hact
        by_cases hr : (CoordBBox.mk (5, 5, 5) (24, 24, 24)).mem
            (roundQ ((c.1 : ℚ)/2), roundQ ((c.2.1 : ℚ)/2), c.2.2) = true
        · have h3 := (mem_iff _ _).mp hr
          simp only at h3
          have bx := (roundHalf_bounds c.1 (by omega)).mp ⟨h3.1, h3.2.1⟩
          have by2 := (roundHalf_bounds c.2.1 (by omega)).mp ⟨h3.2.2.1, h3.2.2.2.1⟩
          omega
        · rw [Bool.not_eq_true] at hr
          simp only [hr, Bool.false_eq_true, if_false, Option.map_none,
            Option.getD_none] at hact
          cases hact
    · rw [Bool.not_eq_true] at hm
      simp only [hm, Bool.false_eq_true, if_false] at hact
  · intro hb
    have hm : (CoordBBox.mk (9, 9, 4) (49, 49, 25)).mem c = true := by
      apply (mem_iff _ _).mpr
      simp only
      omega
    simp only [hm, if_true]
    rw [c4_writeCell]
    by_cases hmm : (CoordBBox.mk (10, 10, 5) (48, 48, 24)).mem c = true
    · simp [hmm]
    · rw [Bool.not_eq_true] at hmm
      have hr : (CoordBBox.mk (5, 5, 5) (24, 24, 24)).mem
          (roundQ ((c.1 : ℚ)/2), roundQ ((c.2.1 : ℚ)/2), c.2.2) = true := by
        apply (mem_iff _ _).mpr
        simp only
        have bx := (roundHalf_bounds c.1 (by omega)).mpr ⟨hb.1, hb.2.1⟩
        have by2 := (roundHalf_bounds c.2.1 (by omega)).mpr ⟨hb.2.2.1, hb.2.2.2.1⟩
        refine ⟨?_, ?_, ?_, ?_, ?_, ?_⟩ <;> omega
      simp [hmm, hr]

theorem c4out_val (c : Coord)
    (hb : 9 ≤ c.1 ∧ c.1 ≤ 48 ∧ 9 ≤ c.2.1 ∧ c.2.1 ≤ 48 ∧ 5 ≤ c.2.2 ∧ c.2.2 ≤ 24) :
    c4out.val c = 1 := by
  rw [c4out_eq]
  unfold transformGrid
  rw [c4src_activeBBox]
  simp only [c4_dilated]
  have hm : (CoordBBox.mk (9, 9, 4) (49, 49, 25)).mem c = true := by
    apply (mem_iff _ _).mpr
    simp only
    omega
  simp only [hm, if_true]
  rw [c4_writeCell]
  by_cases hmm : (CoordBBox.mk (10, 10, 5) (48, 48, 24)).mem c = true
  · simp [hmm]
  · rw [Bool.not_eq_true] at hmm
    have hr : (CoordBBox.mk (5, 5, 5) (24, 24, 24)).mem
        (roundQ ((c.1 : ℚ)/2), roundQ ((c.2.1 : ℚ)/2), c.2.2) = true := by
      apply (mem_iff _ _).mpr
      simp only
      have bx := (roundHalf_bounds c.1 (by omega)).mpr ⟨hb.1, hb.2.1⟩
      have by2 := (roundHalf_bounds c.2.1 (by omega)).mpr ⟨hb.2.2.1, hb.2.2.2.1⟩
      refine ⟨?_, ?_, ?_, ?_, ?_, ?_⟩ <;> omega
    simp [hmm, hr]

theorem c4out_box : c4out.box = ⟨(9, 9, 4), (49, 49, 25)⟩ := by
  rw [c4out_eq]
  unfold transformGrid
  rw [c4src_activeBBox]
  simp only [c4_dilated]

theorem c4out_activeSet :
    c4out.activeSet = (CoordBBox.mk (9, 9, 5) (48, 48, 24)).cells := by
  ext c
  unfold DGrid.activeSet
  rw [Finset.mem_filter, c4out_box, mem_cells, mem_cells, mem_iff, mem_iff, c4out_act]
  simp only
  omega

/-- C4: resampling a source float grid whose active set is a 20x20x20 cube
starting at (5,5,5) with uniform value 1.0 (8000 active voxels) into a
destination grid whose index-to-world transform has been pre-scaled by
(0.5, 0.5, 1.0), using point sampling via resampleToMatch, yields exactly
32000 active voxels, active voxel dimensions (40,40,20), active bounding box
(9,9,5)-(48,48,24), and every active value within 1e-6 of 1.0. -/
theorem C4_nontrivial_resample :
    c4src.activeCount = 8000 ∧
    c4out.activeCount = 32000 ∧
    c4out.activeDim = some (40, 40, 20) ∧
    c4out.activeBBox = some ⟨(9, 9, 5), (48, 48, 24)⟩ ∧
    (∀ c : Coord, c4out.act c = true → |c4out.val c - 1| ≤ 1/1000000) := by
  have hbb : c4out.activeBBox = some ⟨(9, 9, 5), (48, 48, 24)⟩ :=
    dgrid_activeBBox_of_activeSet c4out _ _ (by norm_num) (by norm_num) (by norm_num)
      c4out_activeSet
  refine ⟨?_, ?_, ?_, hbb, ?_⟩
  · unfold SGrid.activeCount
    rw [c4src_activeSet, cells_card]
    decide
  · unfold DGrid.activeCount
    rw [c4out_activeSet, cells_card]
    decide
  · unfold DGrid.activeDim
    rw [hbb]
    norm_num
  · intro c hc
    rw [c4out_val c ((c4out_act c).mp hc)]
    norm_num

/-- Witness for C4: the voxel (9,9,5) is active in the resampled output and
holds a value within 1e-6 of one. -/
theorem C4_nontrivial_resample_witness :
    c4out.act (9, 9, 5) = true ∧ |c4out.val (9, 9, 5) - 1| ≤ 1/1000000 := by
  have hact : c4out.act (9, 9, 5) = true := (c4out_act (9, 9, 5)).mpr (by norm_num)
  exact ⟨hact, C4_nontrivial_resample.2.2.2.2 (9, 9, 5) hact⟩

/-- C8 counterexample: in the non-trivial resample, voxel (9,9,5) lies
outside the source's transformed active bounding box dilated by the point
sampler's stencil radius (zero) as the claim words it, yet the transformer
wrote it: it is active with a non-background value. -/
theorem C8_radius_box_counterexample :
    c4src.activeBBox = some ⟨(5, 5, 5), (24, 24, 24)⟩ ∧
    (specRadiusBox c4fwd 0 ⟨(5, 5, 5), (24, 24, 24)⟩).mem (9, 9, 5) = false ∧
    c4out.act (9, 9, 5) = true ∧ c4out.val (9, 9, 5) ≠ c4src.bg := by
  refine ⟨c4src_activeBBox, by decide, (c4out_act (9, 9, 5)).mpr (by norm_num), ?_⟩
  rw [c4out_val (9, 9, 5) (by norm_num)]
  decide

/-- C8 (amended): the transformer writes only inside the destination-space
bounding box of the source's active set dilated by the sampler's stencil
radius plus one voxel of rounding support on every face; every destination
voxel outside that region is left at the background value and inactive. -/
theorem C8_write_confinement {V : Type} [DecidableEq V] (tt : Bool) (fwd inv : Aff)
    (r : ℕ) (sample : (Coord → V) → (Coord → Bool) → Vec3 → V × Bool)
    (src : SGrid V) (c : Coord)
    (h : ∀ b : CoordBBox, src.activeBBox = some b → (dilatedBox fwd r b).mem c = false) :
    (transformGrid tt fwd inv r sample src).val c = src.bg ∧
    (transformGrid tt fwd inv r sample src).act c = false := by
  unfold transformGrid
  cases hbb : src.activeBBox with
  | none => exact ⟨rfl, rfl⟩
  | some b =>
    have hm := h b hbb
    simp only [hm, Bool.false_eq_true, if_false]
    exact ⟨trivial, trivial⟩

/-- Witness for C8's amended confinement: voxel (100,100,100) lies outside
the dilated box of the non-trivial resample and stays background/inactive. -/
theorem C8_write_confinement_witness :
    (transformGrid true c4fwd c4inv 0 pointSample c4src).val (100, 100, 100) = c4src.bg ∧
    (transformGrid true c4fwd c4inv 0 pointSample c4src).act (100, 100, 100) = false := by
  apply C8_write_confinement
  intro b hb
  rw [c4src_activeBBox] at hb
  cases hb
  decide

/-- C9: transforming a source grid with no active voxels produces a
destination with zero active voxels, left entirely at background/inactive,
for every transform and sampler. -/
theorem C9_empty_input {V : Type} [DecidableEq V] (tt : Bool) (fwd inv : Aff)
    (r : ℕ) (sample : (Coord → V) → (Coord → Bool) → Vec3 → V × Bool)
    (src : SGrid V) (h : src.activeSet = ∅) :
    (transformGrid tt fwd inv r sample src).activeCount = 0 ∧
    (∀ c : Coord, (transformGrid tt fwd inv r sample src).val c = src.bg ∧
      (transformGrid tt fwd inv r sample src).act c = false) := by
  have hbb : src.activeBBox = none := by
    unfold SGrid.activeBBox
    rw [dif_neg]
    rw [h]
    simp
  unfold transformGrid
  rw [hbb]
  simp only
  refine ⟨?_, fun c => ⟨trivial, trivial⟩⟩
  unfold DGrid.activeCount DGrid.activeSet
  simp

/-- Witness for C9: an empty grid stays empty through a transform. -/
theorem C9_empty_input_witness :
    (transformGrid true c4fwd c4inv 0 pointSample (SGrid.mk (0 : ℚ) [])).activeCount = 0 := by
  exact (C9_empty_input true c4fwd c4inv 0 pointSample ⟨(0 : ℚ), []⟩ (by decide)).1

/-- C7: resample-to-match never modifies the destination grid's own
index-to-world transform: the transform it returns alongside the populated
content is the destination's, unchanged, for every source and destination. -/
theorem C7_dest_transform_unchanged {V : Type} [DecidableEq V]
    (sample : (Coord → V) → (Coord → Bool) → Vec3 → V × Bool) (r : ℕ)
    (src dst : XGrid V) :
    (resampleToMatch sample r src dst).1 = dst.xform := rfl

/-- C3: decompose applied to a matrix whose homogeneous (perspective)
column has a non-trivial entry returns failure rather than throwing. -/
theorem C3_perspective_fails (m : Mat4)
    (h : m.m03 ≠ 0 ∨ m.m13 ≠ 0 ∨ m.m23 ≠ 0 ∨ m.m33 ≠ 1) :
    decompose m = none := by
  unfold decompose
  rw [if_pos]
  unfold Mat4.isAffine
  tauto

/-- Witness for C3: the identity matrix decomposes successfully, but
setting its entry (1,3) to one makes decompose fail. -/
theorem C3_perspective_fails_witness :
    (decompose Mat4.identity).isSome = true ∧
    decompose { Mat4.identity with m13 := 1 } = none := by
  constructor
  · decide
  · exact C3_perspective_fails _ (by right; left; decide)


theorem decompFinish_some (m : Mat4) (d0 d : Decomposed)
    (h : decompFinish m d0 = some d) : buildMat d = m := by
  unfold decompFinish at h
  split at h
  case isTrue hb =>
    cases h
    exact hb
  case isFalse => exact Option.noConfusion h

theorem decompEuler_some (m : Mat4) (t s : Vec3) (r : Mat3) (d : Decomposed)
    (h : decompEuler m t s r = some d) : buildMat d = m := by
  unfold decompEuler at h
  split at h
  case isTrue =>
    split at h
    case h_1 =>
      split at h <;> exact decompFinish_some m _ d h
    case h_2 => exact Option.noConfusion h
  case isFalse => exact Option.noConfusion h

theorem decompScaled_some (m : Mat4) (t : Vec3) (l : Mat3) (u0 u1 u2 : ℚ)
    (d : Decomposed) (h : decompScaled m t l u0 u1 u2 = some d) : buildMat d = m := by
  unfold decompScaled at h
  split at h
  case isTrue => exact Option.noConfusion h
  case isFalse => exact decompEuler_some m _ _ _ d h

/-- C2: whenever decompose succeeds on a matrix, rebuilding a matrix from
the returned (scale, rotation, translation) triple with pivot zero under
the same scale-then-Rx-Ry-Rz-then-translate composition order reproduces
the input matrix exactly (the exact-arithmetic counterpart of the 1e-6
tolerance); the recovered factors need not equal the ones that originally
produced the matrix. -/
theorem C2_decompose_roundtrip (m : Mat4) (d : Decomposed)
    (h : decompose m = some d) : buildMat d = m := by
  unfold decompose at h
  split at h
  case isTrue => exact Option.noConfusion h
  case isFalse =>
    split at h
    case h_1 => exact decompScaled_some m _ _ _ _ _ d h
    case h_2 => exact Option.noConfusion h

/-- Witness for C2: a matrix built from unit scales, a rotation about z
with cosine 3/5 and sine 4/5, and translation (7,-2,3) decomposes
successfully, and rebuilding from the decomposition reproduces it. -/
theorem C2_decompose_roundtrip_witness :
    decompose (Mat4.ofParts (Mat3.rotZ (3/5) (4/5)) (7, -2, 3)) =
      some ⟨(1, 1, 1), (1, 0), (1, 0), (3/5, 4/5), (7, -2, 3)⟩ ∧
    buildMat ⟨(1, 1, 1), (1, 0), (1, 0), (3/5, 4/5), (7, -2, 3)⟩ =
      Mat4.ofParts (Mat3.rotZ (3/5) (4/5)) (7, -2, 3) := by
  constructor
  · decide
  · exact C2_decompose_roundtrip _ _ (by decide)

theorem mem_union_left (a b : CoordBBox) (c : Coord) (h : a.mem c = true) :
    (a.union b).mem c = true := by
  simp only [CoordBBox.union, CoordBBox.mem, minI, maxI, Bool.and_eq_true,
    decide_eq_true_eq] at h ⊢
  split_ifs <;> omega

theorem mem_union_right (a b : CoordBBox) (c : Coord) (h : b.mem c = true) :
    (a.union b).mem c = true := by
  simp only [CoordBBox.union, CoordBBox.mem, minI, maxI, Bool.and_eq_true,
    decide_eq_true_eq] at h ⊢
  split_ifs <;> omega

theorem hullFold_covers {V : Type} (rs : List (Region V)) (r : Region V) (hr : r ∈ rs)
    (c : Coord) (hc : r.contains c = true) :
    ∃ b : CoordBBox, hullFold rs = some b ∧ b.mem c = true := by
  induction rs with
  | nil => cases hr
  | cons x xs ih =>
    unfold hullFold
    rcases List.mem_cons.mp hr with rfl | hmem
    · cases hfold : hullFold xs with
      | none => exact ⟨r.box, rfl, hc⟩
      | some b => exact ⟨b.union r.box, rfl, mem_union_right _ _ _ hc⟩
    · obtain ⟨b, hb, hmemb⟩ := ih hmem
      rw [hb]
      exact ⟨b.union x.box, rfl, mem_union_left _ _ _ hmemb⟩

theorem hull_covers {V : Type} (g : SGrid V) (r : Region V) (hr : r ∈ g.regions)
    (c : Coord) (hc : r.contains c = true) :
    ∃ b : CoordBBox, g.hull = some b ∧ b.mem c = true :=
  hullFold_covers g.regions r hr c hc
theorem lookup_props {V : Type} (g : SGrid V) (c : Coord) (r : Region V)
    (h : g.lookup c = some r) : r ∈ g.regions ∧ r.contains c = true := by
  unfold SGrid.lookup at h
  have hmem := List.mem_of_find?_eq_some h
  have hp := List.find?_some h
  exact ⟨List.mem_reverse.mp hmem, hp⟩

theorem on_bounds {V : Type} (g : SGrid V) (c : Coord) (h : g.on c = true) :
    ∃ b : CoordBBox, g.hull = some b ∧ b.mem c = true := by
  unfold SGrid.on at h
  cases hl : g.lookup c with
  | none => rw [hl] at h; cases h
  | some r =>
    obtain ⟨hmem, hcont⟩ := lookup_props g c r hl
    exact hull_covers g r hmem c hcont

theorem cornerSrc_hull {V : Type} (z o tw : V) (ta : Bool) :
    (cornerSrc z o tw ta).hull = some ⟨(0, 0, 0), (20, 20, 20)⟩ := rfl

theorem cornerSrc_tile {V : Type} (z o tw : V) (ta : Bool) (c : Coord)
    (h : 8 ≤ c.1 ∧ c.1 ≤ 15 ∧ 8 ≤ c.2.1 ∧ c.2.1 ≤ 15 ∧ 8 ≤ c.2.2 ∧ c.2.2 ≤ 15) :
    (cornerSrc z o tw ta).val c = tw ∧ (cornerSrc z o tw ta).on c = ta := by
  have hcont : (Region.uniform (CoordBBox.mk (8, 8, 8) (15, 15, 15)) tw ta).contains c
      = true := by
    unfold Region.contains Region.box
    exact (mem_iff _ _).mpr h
  have hl : (cornerSrc z o tw ta).lookup c =
      some (Region.uniform ⟨(8, 8, 8), (15, 15, 15)⟩ tw ta) := by
    unfold SGrid.lookup cornerSrc
    simp only [List.reverse_cons, List.reverse_nil, List.nil_append, List.cons_append,
      List.find?]
    rw [hcont]
  unfold SGrid.val SGrid.on
  rw [hl]
  exact ⟨rfl, rfl⟩

theorem cornerSrc_on_zero {V : Type} (z o tw : V) (ta : Bool) :
    (cornerSrc z o tw ta).on (0, 0, 0) = true := rfl

theorem cornerSrc_on_twenty {V : Type} (z o tw : V) (ta : Bool) :
    (cornerSrc z o tw ta).on (20, 20, 20) = true := rfl

theorem cornerSrc_activeSet {V : Type} (z o tw : V) (ta : Bool) :
    (cornerSrc z o tw ta).activeSet =
      (CoordBBox.mk (0, 0, 0) (20, 20, 20)).cells.filter
        (fun c => (cornerSrc z o tw ta).on c = true) := by
  unfold SGrid.activeSet
  rw [cornerSrc_hull]

theorem sgrid_activeBBox_eq {V : Type} (g : SGrid V) (lo hi : Coord)
    (hlo : lo ∈ g.activeSet) (hhi : hi ∈ g.activeSet)
    (hbd : ∀ c ∈ g.activeSet, lo.1 ≤ c.1 ∧ lo.2.1 ≤ c.2.1 ∧ lo.2.2 ≤ c.2.2 ∧
      c.1 ≤ hi.1 ∧ c.2.1 ≤ hi.2.1 ∧ c.2.2 ≤ hi.2.2) :
    g.activeBBox = some ⟨lo, hi⟩ := by
  unfold SGrid.activeBBox
  have hne : g.activeSet.Nonempty := ⟨lo, hlo⟩
  rw [dif_pos hne]
  congr 1
  apply setBBox_eq
  · exact ⟨lo, hlo, rfl⟩
  · exact ⟨lo, hlo, rfl⟩
  · exact ⟨lo, hlo, rfl⟩
  · exact ⟨hi, hhi, rfl⟩
  · exact ⟨hi, hhi, rfl⟩
  · exact ⟨hi, hhi, rfl⟩
  · exact hbd

theorem cornerSrc_activeBBox {V : Type} (z o tw : V) (ta : Bool) :
    (cornerSrc z o tw ta).activeBBox = some ⟨(0, 0, 0), (20, 20, 20)⟩ := by
  apply sgrid_activeBBox_eq
  · rw [cornerSrc_activeSet]
    refine Finset.mem_filter.mpr ⟨?_, cornerSrc_on_zero z o tw ta⟩
    rw [mem_cells]
    decide
  · rw [cornerSrc_activeSet]
    refine Finset.mem_filter.mpr ⟨?_, cornerSrc_on_twenty z o tw ta⟩
    rw [mem_cells]
    decide
  · intro c hc
    rw [cornerSrc_activeSet] at hc
    have hm := (Finset.mem_filter.mp hc).1
    rw [mem_cells, mem_iff] at hm
    simp only at hm
    show (0 : ℤ) ≤ c.1 ∧ (0 : ℤ) ≤ c.2.1 ∧ (0 : ℤ) ≤ c.2.2 ∧
      c.1 ≤ 20 ∧ c.2.1 ≤ 20 ∧ c.2.2 ≤ 20
    omega

theorem transformGrid_act_eq {V : Type} [DecidableEq V] (tt : Bool) (fwd inv : Aff)
    (r : ℕ) (sample : (Coord → V) → (Coord → Bool) → Vec3 → V × Bool)
    (src : SGrid V) (b : CoordBBox) (hbb : src.activeBBox = some b) (c : Coord) :
    (transformGrid tt fwd inv r sample src).act c =
      if (dilatedBox fwd r b).mem c = true then
        ((writeCell tt fwd inv sample src c).map Prod.snd).getD false
      else false := by
  unfold transformGrid
  rw [hbb]

theorem transformGrid_val_eq {V : Type} [DecidableEq V] (tt : Bool) (fwd inv : Aff)
    (r : ℕ) (sample : (Coord → V) → (Coord → Bool) → Vec3 → V × Bool)
    (src : SGrid V) (b : CoordBBox) (hbb : src.activeBBox = some b) (c : Coord) :
    (transformGrid tt fwd inv r sample src).val c =
      if (dilatedBox fwd r b).mem c = true then
        ((writeCell tt fwd inv sample src c).map Prod.fst).getD src.bg
      else src.bg := by
  unfold transformGrid
  rw [hbb]

theorem transformGrid_box_eq {V : Type} [DecidableEq V] (tt : Bool) (fwd inv : Aff)
    (r : ℕ) (sample : (Coord → V) → (Coord → Bool) → Vec3 → V × Bool)
    (src : SGrid V) (b : CoordBBox) (hbb : src.activeBBox = some b) :
    (transformGrid tt fwd inv r sample src).box = dilatedBox fwd r b := by
  unfold transformGrid
  rw [hbb]

theorem cornerSrc_fastFind {V : Type} (z o tw : V) (ta : Bool) (fwd : Aff) (c : Coord) :
    (cornerSrc z o tw ta).regions.reverse.find?
        (fun r => r.isUniform && (mappedBox fwd r.box).mem c) =
      if (mappedBox fwd ⟨(8, 8, 8), (15, 15, 15)⟩).mem c = true then
        some (Region.uniform ⟨(8, 8, 8), (15, 15, 15)⟩ tw ta)
      else none := by
  unfold cornerSrc
  simp only [List.reverse_cons, List.reverse_nil, List.nil_append, List.cons_append,
    List.find?, Region.isUniform, Region.box, Bool.false_and, Bool.true_and]
  rcases h : (mappedBox fwd ⟨(8, 8, 8), (15, 15, 15)⟩).mem c with _ | _ <;> simp [h]

theorem center_write {V : Type} [DecidableEq V]
    (sample : (Coord → V) → (Coord → Bool) → Vec3 → V × Bool) (r : ℕ)
    (hloc : SupportLocal sample r) (fwd inv : Aff) (z o tw : V) (ta : Bool)
    (hp1 : 8 + (r : ℚ) + 1 ≤ (inv.apply (c2v (c1Center fwd))).1)
    (hp2 : (inv.apply (c2v (c1Center fwd))).1 ≤ 15 - ((r : ℚ) + 1))
    (hp3 : 8 + (r : ℚ) + 1 ≤ (inv.apply (c2v (c1Center fwd))).2.1)
    (hp4 : (inv.apply (c2v (c1Center fwd))).2.1 ≤ 15 - ((r : ℚ) + 1))
    (hp5 : 8 + (r : ℚ) + 1 ≤ (inv.apply (c2v (c1Center fwd))).2.2)
    (hp6 : (inv.apply (c2v (c1Center fwd))).2.2 ≤ 15 - ((r : ℚ) + 1)) :
    writeCell true fwd inv sample (cornerSrc z o tw ta) (c1Center fwd) = some (tw, ta) ∨
    (writeCell true fwd inv sample (cornerSrc z o tw ta) (c1Center fwd) = none ∧
      ta = false ∧ tw = o) := by
  have hsample : sample (cornerSrc z o tw ta).val (cornerSrc z o tw ta).on
      (inv.apply (c2v (c1Center fwd))) = (tw, ta) := by
    apply hloc
    intro c hd1 hd2 hd3
    rw [abs_le] at hd1 hd2 hd3
    apply cornerSrc_tile
    refine ⟨?_, ?_, ?_, ?_, ?_, ?_⟩
    · have : (8 : ℚ) ≤ (c.1 : ℚ) := by linarith
      exact_mod_cast this
    · have : (c.1 : ℚ) ≤ 15 := by linarith
      exact_mod_cast this
    · have : (8 : ℚ) ≤ (c.2.1 : ℚ) := by linarith
      exact_mod_cast this
    · have : (c.2.1 : ℚ) ≤ 15 := by linarith
      exact_mod_cast this
    · have : (8 : ℚ) ≤ (c.2.2 : ℚ) := by linarith
      exact_mod_cast this
    · have : (c.2.2 : ℚ) ≤ 15 := by linarith
      exact_mod_cast this
  unfold writeCell
  have hsk : (if ta = false ∧ tw = (cornerSrc z o tw ta).bg then
      (none : Option (V × Bool)) else some (tw, ta)) = some (tw, ta) ∨
      ((if ta = false ∧ tw = (cornerSrc z o tw ta).bg then
        (none : Option (V × Bool)) else some (tw, ta)) = none ∧ ta = false ∧ tw = o) := by
    by_cases hcond : ta = false ∧ tw = (cornerSrc z o tw ta).bg
    · right
      rw [if_pos hcond]
      exact ⟨rfl, hcond⟩
    · left
      rw [if_neg hcond]
  rcases hdiag : fwd.lin.isDiagonal with _ | _
  · simp only [hdiag, Bool.and_false, Bool.false_eq_true, if_false]
    rw [hsample]
    exact hsk
  · simp only [hdiag, Bool.and_true, if_true]
    rw [cornerSrc_fastFind]
    rcases hm : (mappedBox fwd ⟨(8, 8, 8), (15, 15, 15)⟩).mem (c1Center fwd) with _ | _
    · simp only [Bool.false_eq_true, if_false]
      rw [hsample]
      exact hsk
    · simp only [if_true]
      left
      rfl

theorem pointSample_local {V : Type} : SupportLocal (V := V) pointSample 0 := by
  intro val act p v a h
  have hb : ((0 : ℕ) : ℚ) + 1 = 1 := by norm_num
  have h1 : |(((roundV p).1 : ℤ) : ℚ) - p.1| ≤ ((0 : ℕ) : ℚ) + 1 := by
    rw [hb]
    exact le_trans (abs_roundQ_sub p.1) (by norm_num)
  have h2 : |(((roundV p).2.1 : ℤ) : ℚ) - p.2.1| ≤ ((0 : ℕ) : ℚ) + 1 := by
    rw [hb]
    exact le_trans (abs_roundQ_sub p.2.1) (by norm_num)
  have h3 : |(((roundV p).2.2 : ℤ) : ℚ) - p.2.2| ≤ ((0 : ℕ) : ℚ) + 1 := by
    rw [hb]
    exact le_trans (abs_roundQ_sub p.2.2) (by norm_num)
  have hc := h (roundV p) h1 h2 h3
  unfold pointSample
  rw [hc.1, hc.2]

theorem abs_floor_off (q : ℚ) (d : ℤ) (h1 : -1 ≤ d) (h2 : d ≤ 1) :
    |((Int.floor q + d : ℤ) : ℚ) - q| ≤ 2 := by
  have hf1 : ((Int.floor q : ℤ) : ℚ) ≤ q := Int.floor_le q
  have hf2 : q < ((Int.floor q : ℤ) : ℚ) + 1 := Int.lt_floor_add_one q
  have hd1 : (-1 : ℚ) ≤ (d : ℚ) := by exact_mod_cast h1
  have hd2 : (d : ℚ) ≤ 1 := by exact_mod_cast h2
  rw [abs_le]
  push_cast
  constructor <;> linarith

theorem fract_bounds (q : ℚ) : 0 ≤ q - ((Int.floor q : ℤ) : ℚ) ∧ q - ((Int.floor q : ℤ) : ℚ) < 1 := by
  have hf1 : ((Int.floor q : ℤ) : ℚ) ≤ q := Int.floor_le q
  have hf2 : q < ((Int.floor q : ℤ) : ℚ) + 1 := Int.lt_floor_add_one q
  constructor <;> linarith

theorem boxSample_local {V : Type} [AddCommMonoid V] [Module ℚ V] :
    SupportLocal (V := V) boxSample 1 := by
  intro val act p v a h
  have key : ∀ dx dy dz : ℤ, -1 ≤ dx → dx ≤ 1 → -1 ≤ dy → dy ≤ 1 → -1 ≤ dz → dz ≤ 1 →
      val ((floorV p).1 + dx, (floorV p).2.1 + dy, (floorV p).2.2 + dz) = v ∧
      act ((floorV p).1 + dx, (floorV p).2.1 + dy, (floorV p).2.2 + dz) = a := by
    intro dx dy dz a1 a2 b1 b2 c1 c2
    apply h
    · exact le_trans (abs_floor_off p.1 dx a1 a2) (by norm_num)
    · exact le_trans (abs_floor_off p.2.1 dy b1 b2) (by norm_num)
    · exact le_trans (abs_floor_off p.2.2 dz c1 c2) (by norm_num)
  have k0 := key 0 0 0 (by norm_num) (by norm_num) (by norm_num) (by norm_num) (by norm_num) (by norm_num)
  have k1 := key 1 0 0 (by norm_num) (by norm_num) (by norm_num) (by norm_num) (by norm_num) (by norm_num)
  have k2 := key 0 1 0 (by norm_num) (by norm_num) (by norm_num) (by norm_num) (by norm_num) (by norm_num)
  have k3 := key 1 1 0 (by norm_num) (by norm_num) (by norm_num) (by norm_num) (by norm_num) (by norm_num)
  have k4 := key 0 0 1 (by norm_num) (by norm_num) (by norm_num) (by norm_num) (by norm_num) (by norm_num)
  have k5 := key 1 0 1 (by norm_num) (by norm_num) (by norm_num) (by norm_num) (by norm_num) (by norm_num)
  have k6 := key 0 1 1 (by norm_num) (by norm_num) (by norm_num) (by norm_num) (by norm_num) (by norm_num)
  have k7 := key 1 1 1 (by norm_num) (by norm_num) (by norm_num) (by norm_num) (by norm_num) (by norm_num)
  simp only [add_zero] at k0 k1 k2 k3 k4 k5 k6 k7
  unfold boxSample boxStencil
  simp only [List.foldr, List.any_cons, List.any_nil]
  refine Prod.ext ?_ ?_
  · simp only
    rw [k0.1, k1.1, k2.1, k3.1, k4.1, k5.1, k6.1, k7.1, add_zero]
    simp only [← add_smul]
    convert one_smul ℚ v using 2
    ring
  · simp only
    rw [k0.2, k1.2, k2.2, k3.2, k4.2, k5.2, k6.2, k7.2]
    cases a with
    | false => simp
    | true => simp

theorem quadSample_local {V : Type} [AddCommMonoid V] [Module ℚ V] :
    SupportLocal (V := V) quadSample 2 := by
  intro val act p v a h
  have key : ∀ dx dy dz : ℤ, -1 ≤ dx → dx ≤ 1 → -1 ≤ dy → dy ≤ 1 → -1 ≤ dz → dz ≤ 1 →
      val ((floorV p).1 + dx, (floorV p).2.1 + dy, (floorV p).2.2 + dz) = v ∧
      act ((floorV p).1 + dx, (floorV p).2.1 + dy, (floorV p).2.2 + dz) = a := by
    intro dx dy dz a1 a2 b1 b2 c1 c2
    apply h
    · exact le_trans (abs_floor_off p.1 dx a1 a2) (by norm_num)
    · exact le_trans (abs_floor_off p.2.1 dy b1 b2) (by norm_num)
    · exact le_trans (abs_floor_off p.2.2 dz c1 c2) (by norm_num)
  have k0 := key (-1) (-1) (-1) (by norm_num) (by norm_num) (by norm_num) (by norm_num) (by norm_num) (by norm_num)
  have k1 := key (-1) (-1) (0) (by norm_num) (by norm_num) (by norm_num) (by norm_num) (by norm_num) (by norm_num)
  have k2 := key (-1) (-1) (1) (by norm_num) (by norm_num) (by norm_num) (by norm_num) (by norm_num) (by norm_num)
  have k3 := key (-1) (0) (-1) (by norm_num) (by norm_num) (by norm_num) (by norm_num) (by norm_num) (by norm_num)
  have k4 := key (-1) (0) (0) (by norm_num) (by norm_num) (by norm_num) (by norm_num) (by norm_num) (by norm_num)
  have k5 := key (-1) (0) (1) (by norm_num) (by norm_num) (by norm_num) (by norm_num) (by norm_num) (by norm_num)
  have k6 := key (-1) (1) (-1) (by norm_num) (by norm_num) (by norm_num) (by norm_num) (by norm_num) (by norm_num)
  have k7 := key (-1) (1) (0) (by norm_num) (by norm_num) (by norm_num) (by norm_num) (by norm_num) (by norm_num)
  have k8 := key (-1) (1) (1) (by norm_num) (by norm_num) (by norm_num) (by norm_num) (by norm_num) (by norm_num)
  have k9 := key (0) (-1) (-1) (by norm_num) (by norm_num) (by norm_num) (by norm_num) (by norm_num) (by norm_num)
  have k10 := key (0) (-1) (0) (by norm_num) (by norm_num) (by norm_num) (by norm_num) (by norm_num) (by norm_num)
  have k11 := key (0) (-1) (1) (by norm_num) (by norm_num) (by norm_num) (by norm_num) (by norm_num) (by norm_num)
  have k12 := key (0) (0) (-1) (by norm_num) (by norm_num) (by norm_num) (by norm_num) (by norm_num) (by norm_num)
  have k13 := key (0) (0) (0) (by norm_num) (by norm_num) (by norm_num) (by norm_num) (by norm_num) (by norm_num)
  have k14 := key (0) (0) (1) (by norm_num) (by norm_num) (by norm_num) (by norm_num) (by norm_num) (by norm_num)
  have k15 := key (0) (1) (-1) (by norm_num) (by norm_num) (by norm_num) (by norm_num) (by norm_num) (by norm_num)
  have k16 := key (0) (1) (0) (by norm_num) (by norm_num) (by norm_num) (by norm_num) (by norm_num) (by norm_num)
  have k17 := key (0) (1) (1) (by norm_num) (by norm_num) (by norm_num) (by norm_num) (by norm_num) (by norm_num)
  have k18 := key (1) (-1) (-1) (by norm_num) (by norm_num) (by norm_num) (by norm_num) (by norm_num) (by norm_num)
  have k19 := key (1) (-1) (0) (by norm_num) (by norm_num) (by norm_num) (by norm_num) (by norm_num) (by norm_num)
  have k20 := key (1) (-1) (1) (by norm_num) (by norm_num) (by norm_num) (by norm_num) (by norm_num) (by norm_num)
  have k21 := key (1) (0) (-1) (by norm_num) (by norm_num) (by norm_num) (by norm_num) (by norm_num) (by norm_num)
  have k22 := key (1) (0) (0) (by norm_num) (by norm_num) (by norm_num) (by norm_num) (by norm_num) (by norm_num)
  have k23 := key (1) (0) (1) (by norm_num) (by norm_num) (by norm_num) (by norm_num) (by norm_num) (by norm_num)
  have k24 := key (1) (1) (-1) (by norm_num) (by norm_num) (by norm_num) (by norm_num) (by norm_num) (by norm_num)
  have k25 := key (1) (1) (0) (by norm_num) (by norm_num) (by norm_num) (by norm_num) (by norm_num) (by norm_num)
  have k26 := key (1) (1) (1) (by norm_num) (by norm_num) (by norm_num) (by norm_num) (by norm_num) (by norm_num)
  simp only [add_zero, ← sub_eq_add_neg] at k0 k1 k2 k3 k4 k5 k6 k7 k8 k9 k10 k11 k12 k13 k14 k15 k16 k17 k18 k19 k20 k21 k22 k23 k24 k25 k26
  unfold quadSample quadStencil
  simp only [List.foldr, List.any_cons, List.any_nil]
  refine Prod.ext ?_ ?_
  · simp only
    rw [k0.1, k1.1, k2.1, k3.1, k4.1, k5.1, k6.1, k7.1, k8.1, k9.1, k10.1, k11.1, k12.1, k13.1, k14.1, k15.1, k16.1, k17.1, k18.1, k19.1, k20.1, k21.1, k22.1, k23.1, k24.1, k25.1, k26.1, add_zero]
    simp only [← add_smul]
    convert one_smul ℚ v using 2
    ring
  · simp only
    rw [k0.2, k1.2, k2.2, k3.2, k4.2, k5.2, k6.2, k7.2, k8.2, k9.2, k10.2, k11.2, k12.2, k13.2, k14.2, k15.2, k16.2, k17.2, k18.2, k19.2, k20.2, k21.2, k22.2, k23.2, k24.2, k25.2, k26.2]
    cases a with
    | false => simp
    | true => simp

theorem intBoxSample_local : SupportLocal intBoxSample 1 := by
  intro val act p v a h
  unfold intBoxSample
  have hb : boxSample (fun c => ((val c : ℤ) : ℚ)) act p = ((v : ℚ), a) := by
    apply boxSample_local
    intro c h1 h2 h3
    have hc := h c h1 h2 h3
    exact ⟨by rw [hc.1], hc.2⟩
  rw [hb]
  simp only
  rw [roundQ_intCast]

theorem roundQ_close (q : ℚ) (k : ℤ) (h : |(k : ℚ) - q| < 1/2) : roundQ q = k := by
  rw [abs_lt] at h
  unfold roundQ
  by_cases hq : q < 0
  · rw [if_pos hq]
    have hf : Int.floor (-q + 1/2) = -k := by
      rw [Int.floor_eq_iff]
      constructor
      · push_cast
        linarith [h.1, h.2]
      · push_cast
        linarith [h.1, h.2]
    rw [hf]
    ring
  · rw [if_neg hq]
    rw [Int.floor_eq_iff]
    constructor
    · linarith [h.1, h.2]
    · linarith [h.1, h.2]

theorem pointSample_nearActive {V : Type} : NearActive (V := V) pointSample (1/2) := by
  intro val act p k hk h1 h2 h3
  have e : roundV p = k := by
    unfold roundV
    rw [roundQ_close p.1 k.1 h1, roundQ_close p.2.1 k.2.1 h2, roundQ_close p.2.2 k.2.2 h3]
  unfold pointSample
  simp only [e]
  exact hk

theorem near_floor_cases (q : ℚ) (k : ℤ) (h : |(k : ℚ) - q| < 1) :
    k = Int.floor q ∨ k = Int.floor q + 1 := by
  rw [abs_lt] at h
  have hf := fract_bounds q
  have i1 : Int.floor q - 1 < k := by
    have : ((Int.floor q : ℤ) : ℚ) - 1 < (k : ℚ) := by linarith [h.1, h.2, hf.1, hf.2]
    exact_mod_cast this
  have i2 : k < Int.floor q + 2 := by
    have : (k : ℚ) < ((Int.floor q : ℤ) : ℚ) + 2 := by linarith [h.1, h.2, hf.1, hf.2]
    exact_mod_cast this
  omega

theorem boxSample_nearActive {V : Type} [AddCommMonoid V] [Module ℚ V] :
    NearActive (V := V) boxSample 1 := by
  intro val act p k hk h1 h2 h3
  have hx : k.1 = (floorV p).1 ∨ k.1 = (floorV p).1 + 1 := near_floor_cases p.1 k.1 h1
  have hy : k.2.1 = (floorV p).2.1 ∨ k.2.1 = (floorV p).2.1 + 1 :=
    near_floor_cases p.2.1 k.2.1 h2
  have hz : k.2.2 = (floorV p).2.2 ∨ k.2.2 = (floorV p).2.2 + 1 :=
    near_floor_cases p.2.2 k.2.2 h3
  have e : (boxSample val act p).2 = (boxStencil p).any (fun cw => act cw.1) := rfl
  rw [e]
  unfold boxStencil
  simp only [List.any_cons, List.any_nil, Bool.or_eq_true, Bool.false_eq_true, or_false]
  rcases hx with hx | hx <;> rcases hy with hy | hy <;> rcases hz with hz | hz <;>
    simp only [← hx, ← hy, ← hz] <;> simp [hk]

theorem quadSample_nearActive {V : Type} [AddCommMonoid V] [Module ℚ V] :
    NearActive (V := V) quadSample 1 := by
  intro val act p k hk h1 h2 h3
  have hx : k.1 = (floorV p).1 ∨ k.1 = (floorV p).1 + 1 := near_floor_cases p.1 k.1 h1
  have hy : k.2.1 = (floorV p).2.1 ∨ k.2.1 = (floorV p).2.1 + 1 :=
    near_floor_cases p.2.1 k.2.1 h2
  have hz : k.2.2 = (floorV p).2.2 ∨ k.2.2 = (floorV p).2.2 + 1 :=
    near_floor_cases p.2.2 k.2.2 h3
  have e : (quadSample val act p).2 = (quadStencil p).any (fun cw => act cw.1) := rfl
  rw [e]
  unfold quadStencil
  simp only [List.any_cons, List.any_nil, Bool.or_eq_true, Bool.false_eq_true, or_false]
  rcases hx with hx | hx <;> rcases hy with hy | hy <;> rcases hz with hz | hz <;>
    simp only [← hx, ← hy, ← hz] <;> simp [hk]

theorem intBoxSample_nearActive : NearActive intBoxSample 1 := by
  intro val act p k hk h1 h2 h3
  show (boxSample (fun c => ((val c : ℤ) : ℚ)) act p).2 = true
  exact boxSample_nearActive (fun c => ((val c : ℤ) : ℚ)) act p k hk h1 h2 h3

theorem cornerSrc_on_corners {V : Type} (z o tw : V) (ta : Bool) (k : Coord)
    (hk : k ∈ cubeCorners) : (cornerSrc z o tw ta).on k = true := by
  unfold cubeCorners at hk
  simp only [List.mem_cons, List.not_mem_nil, or_false] at hk
  rcases hk with h | h | h | h | h | h | h | h <;> subst h <;> rfl

theorem cellWrite_active {V : Type} [DecidableEq V]
    (sample : (Coord → V) → (Coord → Bool) → Vec3 → V × Bool) (d : ℚ)
    (hna : NearActive sample d) (fwd inv : Aff) (z o tw : V) (ta : Bool) (c k : Coord)
    (hkc : k ∈ cubeCorners)
    (h1 : |((k.1 : ℚ) - (inv.apply (c2v c)).1)| < d)
    (h2 : |((k.2.1 : ℚ) - (inv.apply (c2v c)).2.1)| < d)
    (h3 : |((k.2.2 : ℚ) - (inv.apply (c2v c)).2.2)| < d)
    (ht : (mappedBox fwd ⟨(8, 8, 8), (15, 15, 15)⟩).mem c = true → ta = true) :
    c1ActiveWrite sample fwd inv z o tw ta c = true := by
  have hkon : (cornerSrc z o tw ta).on k = true := cornerSrc_on_corners z o tw ta k hkc
  have hs : (sample (cornerSrc z o tw ta).val (cornerSrc z o tw ta).on
      (inv.apply (c2v c))).2 = true :=
    hna (cornerSrc z o tw ta).val (cornerSrc z o tw ta).on (inv.apply (c2v c)) k hkon h1 h2 h3
  have hnot : ¬((sample (cornerSrc z o tw ta).val (cornerSrc z o tw ta).on
      (inv.apply (c2v c))).2 = false ∧
      (sample (cornerSrc z o tw ta).val (cornerSrc z o tw ta).on
        (inv.apply (c2v c))).1 = (cornerSrc z o tw ta).bg) := by
    intro hcon
    obtain ⟨hf, _⟩ := hcon
    rw [hs] at hf
    simp at hf
  unfold c1ActiveWrite writeCell
  rcases hdiag : fwd.lin.isDiagonal with _ | _
  · simp only [hdiag, Bool.and_false, Bool.false_eq_true, if_false]
    rw [if_neg hnot]
    exact hs
  · simp only [hdiag, Bool.and_true, if_true]
    rw [cornerSrc_fastFind]
    rcases hm : (mappedBox fwd ⟨(8, 8, 8), (15, 15, 15)⟩).mem c with _ | _
    · simp only [Bool.false_eq_true, if_false]
      rw [if_neg hnot]
      exact hs
    · simp only [if_true]
      exact ht hm

/-- C5: with transformTiles enabled, for every support-local sampler (the
point, box, triquadratic and integer box samplers are all proved
support-local) over any value type, and every affine map whose inverse
keeps the mapped tile centre's sampling support inside the interior tile
(8,8,8)-(15,15,15), transforming the 8-corner cube grid with an interior
tile of either activation preserves the tile's active/inactive flag in the
output at the rounded affine image of the tile centre. -/
theorem C5_tile_flag_preserved {V : Type} [DecidableEq V]
    (sample : (Coord → V) → (Coord → Bool) → Vec3 → V × Bool) (r : ℕ)
    (hloc : SupportLocal sample r) (fwd inv : Aff) (z o tw : V) (ta : Bool)
    (hc : (dilatedBox fwd r ⟨(0, 0, 0), (20, 20, 20)⟩).mem (c1Center fwd) = true)
    (hp1 : 8 + (r : ℚ) + 1 ≤ (inv.apply (c2v (c1Center fwd))).1)
    (hp2 : (inv.apply (c2v (c1Center fwd))).1 ≤ 15 - ((r : ℚ) + 1))
    (hp3 : 8 + (r : ℚ) + 1 ≤ (inv.apply (c2v (c1Center fwd))).2.1)
    (hp4 : (inv.apply (c2v (c1Center fwd))).2.1 ≤ 15 - ((r : ℚ) + 1))
    (hp5 : 8 + (r : ℚ) + 1 ≤ (inv.apply (c2v (c1Center fwd))).2.2)
    (hp6 : (inv.apply (c2v (c1Center fwd))).2.2 ≤ 15 - ((r : ℚ) + 1)) :
    (transformGrid true fwd inv r sample (cornerSrc z o tw ta)).act (c1Center fwd) = ta := by
  rw [transformGrid_act_eq true fwd inv r sample _ _ (cornerSrc_activeBBox z o tw ta)]
  rw [if_pos hc]
  rcases center_write sample r hloc fwd inv z o tw ta hp1 hp2 hp3 hp4 hp5 hp6 with
    hw | ⟨hw, hta, htw⟩
  · rw [hw]
    rfl
  · rw [hw, hta]
    rfl

/-- Witness for C5: identity transform, point sampler, rational values,
active tile: the centre voxel of the output is active. -/
theorem C5_tile_flag_witness :
    (transformGrid true Aff.id Aff.id 0 pointSample
      (cornerSrc (0 : ℚ) 1 2 true)).act (c1Center Aff.id) = true :=
  C5_tile_flag_preserved pointSample 0 pointSample_local Aff.id Aff.id 0 1 2 true
    (by decide) (by decide) (by decide) (by decide) (by decide) (by decide) (by decide)

/-- C10: with transformTiles enabled, under the same support-locality and
geometry conditions as the tile-flag claim, the value stored at the rounded
affine image of the tile centre equals the tile's value two even when the
tile is inactive, and that voxel's active flag equals the tile's flag. -/
theorem C10_tile_value_transferred {V : Type} [DecidableEq V]
    (sample : (Coord → V) → (Coord → Bool) → Vec3 → V × Bool) (r : ℕ)
    (hloc : SupportLocal sample r) (fwd inv : Aff) (z o tw : V) (ta : Bool)
    (hc : (dilatedBox fwd r ⟨(0, 0, 0), (20, 20, 20)⟩).mem (c1Center fwd) = true)
    (hp1 : 8 + (r : ℚ) + 1 ≤ (inv.apply (c2v (c1Center fwd))).1)
    (hp2 : (inv.apply (c2v (c1Center fwd))).1 ≤ 15 - ((r : ℚ) + 1))
    (hp3 : 8 + (r : ℚ) + 1 ≤ (inv.apply (c2v (c1Center fwd))).2.1)
    (hp4 : (inv.apply (c2v (c1Center fwd))).2.1 ≤ 15 - ((r : ℚ) + 1))
    (hp5 : 8 + (r : ℚ) + 1 ≤ (inv.apply (c2v (c1Center fwd))).2.2)
    (hp6 : (inv.apply (c2v (c1Center fwd))).2.2 ≤ 15 - ((r : ℚ) + 1)) :
    (transformGrid true fwd inv r sample (cornerSrc z o tw ta)).val (c1Center fwd) = tw ∧
    (transformGrid true fwd inv r sample (cornerSrc z o tw ta)).act (c1Center fwd) = ta := by
  rw [transformGrid_act_eq true fwd inv r sample _ _ (cornerSrc_activeBBox z o tw ta)]
  rw [transformGrid_val_eq true fwd inv r sample _ _ (cornerSrc_activeBBox z o tw ta)]
  rw [if_pos hc, if_pos hc]
  rcases center_write sample r hloc fwd inv z o tw ta hp1 hp2 hp3 hp4 hp5 hp6 with
    hw | ⟨hw, hta, htw⟩
  · rw [hw]
    exact ⟨rfl, rfl⟩
  · rw [hw, hta, htw]
    exact ⟨rfl, rfl⟩

/-- Witness for C10: identity transform, point sampler, rational values,
inactive tile: the centre voxel of the output holds two but stays off. -/
theorem C10_tile_value_witness :
    (transformGrid true Aff.id Aff.id 0 pointSample
      (cornerSrc (0 : ℚ) 1 2 false)).val (c1Center Aff.id) = 2 ∧
    (transformGrid true Aff.id Aff.id 0 pointSample
      (cornerSrc (0 : ℚ) 1 2 false)).act (c1Center Aff.id) = false :=
  C10_tile_value_transferred pointSample 0 pointSample_local Aff.id Aff.id 0 1 2 false
    (by decide) (by decide) (by decide) (by decide) (by decide) (by decide) (by decide)

theorem aff_id_apply (v : Vec3) : Aff.id.apply v = v := by
  unfold Aff.id Aff.apply Mat3.applyRow Mat3.id
  simp only [mul_one, mul_zero, add_zero, zero_add]

theorem mat3_mul_inv (m : Mat3) (hd : m.det ≠ 0) : m.mul m.inv = Mat3.id := by
  unfold Mat3.det at hd
  unfold Mat3.mul Mat3.inv Mat3.id Mat3.det
  simp only [Mat3.mk.injEq]
  refine ⟨?_, ?_, ?_, ?_, ?_, ?_, ?_, ?_, ?_⟩ <;> field_simp <;> ring

theorem aff_comp_inv (a : Aff) (hd : a.lin.det ≠ 0) : a.comp a.inv = Aff.id := by
  unfold Aff.comp Aff.inv Aff.id
  simp only
  rw [mat3_mul_inv a.lin hd]
  simp only [Aff.mk.injEq, true_and]
  refine Prod.ext ?_ (Prod.ext ?_ ?_) <;> simp

theorem find?_congr_list {α : Type} (l : List α) (p q : α → Bool)
    (h : ∀ a ∈ l, p a = q a) : l.find? p = l.find? q := by
  induction l with
  | nil => rfl
  | cons x xs ih =>
    simp only [List.find?]
    rw [h x (List.mem_cons_self x xs)]
    cases q x
    · exact ih (fun a ha => h a (List.mem_cons_of_mem x ha))
    · rfl

theorem mem_activeSet_iff {V : Type} (g : SGrid V) (c : Coord) :
    c ∈ g.activeSet ↔ g.on c = true := by
  unfold SGrid.activeSet
  cases hh : g.hull with
  | none =>
    simp only [Finset.not_mem_empty, false_iff]
    intro hon
    obtain ⟨b, hb, _⟩ := on_bounds g c hon
    rw [hh] at hb
    cases hb
  | some b =>
    rw [Finset.mem_filter]
    constructor
    · exact fun h => h.2
    · intro hon
      refine ⟨?_, hon⟩
      obtain ⟨b2, hb2, hm⟩ := on_bounds g c hon
      rw [hh] at hb2
      cases hb2
      rw [mem_cells]
      exact hm

theorem activeBBox_bounds {V : Type} (g : SGrid V) (b : CoordBBox)
    (hbb : g.activeBBox = some b) (c : Coord) (hc : g.on c = true) :
    b.mem c = true := by
  unfold SGrid.activeBBox at hbb
  by_cases hne : g.activeSet.Nonempty
  · rw [dif_pos hne] at hbb
    have hb : b = setBBox g.activeSet hne := (Option.some.inj hbb).symm
    subst hb
    have hmem : c ∈ g.activeSet := (mem_activeSet_iff g c).mpr hc
    rw [mem_iff]
    unfold setBBox
    refine ⟨Finset.inf'_le _ hmem, Finset.le_sup' (fun c : Coord => c.1) hmem,
      Finset.inf'_le _ hmem, Finset.le_sup' (fun c : Coord => c.2.1) hmem,
      Finset.inf'_le _ hmem, Finset.le_sup' (fun c : Coord => c.2.2) hmem⟩
  · rw [dif_neg hne] at hbb
    cases hbb

theorem mappedBox_id (b : CoordBBox) (h1 : b.lo.1 ≤ b.hi.1) (h2 : b.lo.2.1 ≤ b.hi.2.1)
    (h3 : b.lo.2.2 ≤ b.hi.2.2) : mappedBox Aff.id b = b := by
  obtain ⟨⟨l1, l2, l3⟩, ⟨r1, r2, r3⟩⟩ := b
  simp only at h1 h2 h3
  unfold mappedBox
  rw [aff_id_apply, aff_id_apply, roundV_c2v, roundV_c2v]
  simp only [minI, maxI, c2v]
  rw [if_pos h1, if_pos h2, if_pos h3, if_pos h1, if_pos h2, if_pos h3]

theorem find?_uniform_of_disjoint {V : Type} (l : List (Region V))
    (hdisj : l.Pairwise (fun r1 r2 =>
      ∀ c : Coord, ¬(r1.contains c = true ∧ r2.contains c = true))) (c : Coord) :
    l.find? (fun r => r.isUniform && r.contains c) =
      (match l.find? (fun r => r.contains c) with
      | some r => if r.isUniform = true then some r else none
      | none => none) := by
  induction l with
  | nil => rfl
  | cons x xs ih =>
    rw [List.pairwise_cons] at hdisj
    obtain ⟨hx, hxs⟩ := hdisj
    simp only [List.find?]
    cases hc : x.contains c with
    | false =>
      simp only [Bool.and_false]
      exact ih hxs
    | true =>
      simp only [Bool.and_true]
      cases hu : x.isUniform with
      | false =>
        simp only
        have hnone : xs.find? (fun r => r.isUniform && r.contains c) = none := by
          apply List.find?_eq_none.mpr
          intro r hr
          have hd := hx r hr c
          cases hrc : r.contains c with
          | false => simp [hrc]
          | true => exact absurd ⟨hc, hrc⟩ hd
        rw [hnone]
        simp
      | true => simp

theorem writeCell_id {V : Type} [DecidableEq V] (g : SGrid V) (hwf : g.WF) (c : Coord) :
    ((writeCell true Aff.id Aff.id pointSample g c).map Prod.snd).getD false = g.on c ∧
    (g.on c = true →
      ((writeCell true Aff.id Aff.id pointSample g c).map Prod.fst).getD g.bg = g.val c) := by
  obtain ⟨hproper, hdisj⟩ := hwf
  have hF : g.regions.reverse.find?
      (fun r => r.isUniform && (mappedBox Aff.id r.box).mem c) =
      (match g.lookup c with
      | some r => if r.isUniform = true then some r else none
      | none => none) := by
    have hcong : ∀ r ∈ g.regions.reverse,
        (r.isUniform && (mappedBox Aff.id r.box).mem c) = (r.isUniform && r.contains c) := by
      intro r hr
      have hp := hproper r (List.mem_reverse.mp hr)
      rw [show (mappedBox Aff.id r.box) = r.box from mappedBox_id r.box hp.1 hp.2.1 hp.2.2]
      rfl
    have hrev : g.regions.reverse.Pairwise (fun r1 r2 =>
        ∀ c : Coord, ¬(r1.contains c = true ∧ r2.contains c = true)) :=
      List.pairwise_reverse.mpr (hdisj.imp (fun h c hab => h c ⟨hab.2, hab.1⟩))
    rw [find?_congr_list _ _ _ hcong]
    exact find?_uniform_of_disjoint _ hrev c
  have hsampled : pointSample g.val g.on (Aff.id.apply (c2v c)) = (g.val c, g.on c) := by
    rw [aff_id_apply]
    unfold pointSample
    rw [roundV_c2v]
  unfold writeCell
  have hdiag : (true && Aff.id.lin.isDiagonal) = true := by decide
  simp only [hdiag, if_true]
  cases hlk : g.lookup c with
  | none =>
    rw [hlk] at hF
    simp only at hF
    rw [hF]
    have hon : g.on c = false := by unfold SGrid.on; rw [hlk]; rfl
    have hval : g.val c = g.bg := by unfold SGrid.val; rw [hlk]; rfl
    simp only [hsampled]
    rw [if_pos ⟨hon, hval⟩]
    constructor
    · simp [hon]
    · intro hcon
      rw [hon] at hcon
      cases hcon
  | some r =>
    rw [hlk] at hF
    simp only at hF
    have hon : g.on c = r.active := by unfold SGrid.on; rw [hlk]; rfl
    have hval : g.val c = r.value := by unfold SGrid.val; rw [hlk]; rfl
    cases hu : r.isUniform with
    | true =>
      rw [hu] at hF
      simp only [if_true] at hF
      rw [hF]
      exact ⟨by simp [hon], fun _ => by simp [hval]⟩
    | false =>
      rw [hu] at hF
      simp only [Bool.false_eq_true, if_false] at hF
      rw [hF]
      simp only [hsampled]
      by_cases hsk : g.on c = false ∧ g.val c = g.bg
      · rw [if_pos hsk]
        constructor
        · simp [hsk.1]
        · intro hcon
          rw [hsk.1] at hcon
          cases hcon
      · rw [if_neg hsk]
        exact ⟨rfl, fun _ => rfl⟩

theorem minQ_le_right (a b : ℚ) : minQ a b ≤ b := by
  unfold minQ
  split <;> linarith

theorem le_maxQ_left (a b : ℚ) : a ≤ maxQ a b := by
  unfold maxQ
  split <;> linarith

theorem le_maxQ_right (a b : ℚ) : b ≤ maxQ a b := by
  unfold maxQ
  split <;> linarith

theorem foldr_minV_le_base (l : List Vec3) (base : Vec3) :
    (l.foldr minV base).1 ≤ base.1 ∧ (l.foldr minV base).2.1 ≤ base.2.1 ∧
    (l.foldr minV base).2.2 ≤ base.2.2 := by
  induction l with
  | nil => exact ⟨le_refl _, le_refl _, le_refl _⟩
  | cons x xs ih =>
    rw [List.foldr_cons]
    exact ⟨le_trans (minQ_le_right _ _) ih.1, le_trans (minQ_le_right _ _) ih.2.1,
      le_trans (minQ_le_right _ _) ih.2.2⟩

theorem foldr_maxV_ge_mem (l : List Vec3) (base x : Vec3) (hx : x ∈ l) :
    x.1 ≤ (l.foldr maxV base).1 ∧ x.2.1 ≤ (l.foldr maxV base).2.1 ∧
    x.2.2 ≤ (l.foldr maxV base).2.2 := by
  induction l with
  | nil => cases hx
  | cons y ys ih =>
    rw [List.foldr_cons]
    rcases List.mem_cons.mp hx with rfl | hmem
    · exact ⟨le_maxQ_left _ _, le_maxQ_left _ _, le_maxQ_left _ _⟩
    · have hi2 := ih hmem
      exact ⟨le_trans hi2.1 (le_maxQ_right _ _), le_trans hi2.2.1 (le_maxQ_right _ _),
        le_trans hi2.2.2 (le_maxQ_right _ _)⟩

theorem hi_corner_mem (fwd : Aff) (b : CoordBBox) :
    fwd.apply (c2v b.hi) ∈ boxCornersQ fwd b := by
  unfold boxCornersQ
  refine List.mem_map.mpr ⟨7, by decide, ?_⟩
  norm_num
  rfl

theorem dilatedBox_id_superset (r : ℕ) (b : CoordBBox) (c : Coord)
    (hc : b.mem c = true) : (dilatedBox Aff.id r b).mem c = true := by
  rw [mem_iff] at hc ⊢
  unfold dilatedBox addC floorV ceilV
  simp only
  have hbase : Aff.id.apply (c2v b.lo) = c2v b.lo := aff_id_apply _
  rw [hbase]
  have hmin := foldr_minV_le_base (boxCornersQ Aff.id b) (c2v b.lo)
  have hhiC : c2v b.hi ∈ boxCornersQ Aff.id b := by
    have hm := hi_corner_mem Aff.id b
    rw [aff_id_apply] at hm
    exact hm
  have hmax := foldr_maxV_ge_mem (boxCornersQ Aff.id b) (c2v b.lo) (c2v b.hi) hhiC
  simp only [c2v] at hmin hmax
  have f1 : Int.floor ((boxCornersQ Aff.id b).foldr minV (c2v b.lo)).1 ≤ b.lo.1 := by
    have hf := Int.floor_mono hmin.1
    rwa [Int.floor_intCast] at hf
  have f2 : Int.floor ((boxCornersQ Aff.id b).foldr minV (c2v b.lo)).2.1 ≤ b.lo.2.1 := by
    have hf := Int.floor_mono hmin.2.1
    rwa [Int.floor_intCast] at hf
  have f3 : Int.floor ((boxCornersQ Aff.id b).foldr minV (c2v b.lo)).2.2 ≤ b.lo.2.2 := by
    have hf := Int.floor_mono hmin.2.2
    rwa [Int.floor_intCast] at hf
  have g1 : b.hi.1 ≤ Int.ceil ((boxCornersQ Aff.id b).foldr maxV (c2v b.lo)).1 := by
    have hg := Int.ceil_mono hmax.1
    rwa [Int.ceil_intCast] at hg
  have g2 : b.hi.2.1 ≤ Int.ceil ((boxCornersQ Aff.id b).foldr maxV (c2v b.lo)).2.1 := by
    have hg := Int.ceil_mono hmax.2.1
    rwa [Int.ceil_intCast] at hg
  have g3 : b.hi.2.2 ≤ Int.ceil ((boxCornersQ Aff.id b).foldr maxV (c2v b.lo)).2.2 := by
    have hg := Int.ceil_mono hmax.2.2
    rwa [Int.ceil_intCast] at hg
  have hr : (0 : ℤ) ≤ (r : ℤ) := Int.ofNat_nonneg r
  refine ⟨?_, ?_, ?_, ?_, ?_, ?_⟩ <;> omega

theorem transformGrid_id_act {V : Type} [DecidableEq V] (g : SGrid V) (hwf : g.WF)
    (c : Coord) :
    (transformGrid true Aff.id Aff.id 0 pointSample g).act c = g.on c := by
  cases hbb : g.activeBBox with
  | none =>
    have hempty : ∀ d : Coord, g.on d = false := by
      intro d
      cases hod : g.on d with
      | false => rfl
      | true =>
        have hmem := (mem_activeSet_iff g d).mpr hod
        have hne : g.activeSet.Nonempty := ⟨d, hmem⟩
        unfold SGrid.activeBBox at hbb
        rw [dif_pos hne] at hbb
        cases hbb
    unfold transformGrid
    rw [hbb, hempty c]
  | some b =>
    rw [transformGrid_act_eq true Aff.id Aff.id 0 pointSample g b hbb c]
    by_cases hm : (dilatedBox Aff.id 0 b).mem c = true
    · rw [if_pos hm]
      exact (writeCell_id g hwf c).1
    · rw [if_neg hm]
      cases hoc : g.on c with
      | false => rfl
      | true =>
        exact absurd (dilatedBox_id_superset 0 b c (activeBBox_bounds g b hbb c hoc)) hm

theorem transformGrid_id_val {V : Type} [DecidableEq V] (g : SGrid V) (hwf : g.WF)
    (c : Coord) (hoc : g.on c = true) :
    (transformGrid true Aff.id Aff.id 0 pointSample g).val c = g.val c := by
  cases hbb : g.activeBBox with
  | none =>
    have hmem := (mem_activeSet_iff g c).mpr hoc
    have hne : g.activeSet.Nonempty := ⟨c, hmem⟩
    unfold SGrid.activeBBox at hbb
    rw [dif_pos hne] at hbb
    cases hbb
  | some b =>
    rw [transformGrid_val_eq true Aff.id Aff.id 0 pointSample g b hbb c]
    have hm := dilatedBox_id_superset 0 b c (activeBBox_bounds g b hbb c hoc)
    rw [if_pos hm]
    exact (writeCell_id g hwf c).2 hoc

theorem transformGrid_id_activeSet {V : Type} [DecidableEq V] (g : SGrid V)
    (hwf : g.WF) :
    (transformGrid true Aff.id Aff.id 0 pointSample g).activeSet = g.activeSet := by
  ext c
  unfold DGrid.activeSet
  rw [Finset.mem_filter, mem_activeSet_iff, transformGrid_id_act g hwf c]
  constructor
  · exact fun h => h.2
  · intro hoc
    refine ⟨?_, hoc⟩
    cases hbb : g.activeBBox with
    | none =>
      have hmem := (mem_activeSet_iff g c).mpr hoc
      have hne : g.activeSet.Nonempty := ⟨c, hmem⟩
      unfold SGrid.activeBBox at hbb
      rw [dif_pos hne] at hbb
      cases hbb
    | some b =>
      rw [transformGrid_box_eq true Aff.id Aff.id 0 pointSample g b hbb, mem_cells]
      exact dilatedBox_id_superset 0 b c (activeBBox_bounds g b hbb c hoc)

/-- C6: resampling any well-formed source grid into a destination sharing
the identical (invertible) index-to-world transform, with nearest-neighbour
point sampling, reproduces the source exactly: the destination's active
voxel count equals the source's, and every active source voxel's value is
reproduced identically (exact equality, the idealized counterpart of
bit-for-bit) with its active flag set. -/
theorem C6_identity_resample {V : Type} [DecidableEq V] (src dst : XGrid V)
    (hx : dst.xform = src.xform) (hd : src.xform.lin.det ≠ 0) (hwf : src.grid.WF) :
    (resampleToMatch pointSample 0 src dst).2.activeCount = src.grid.activeCount ∧
    ∀ c : Coord, src.grid.on c = true →
      (resampleToMatch pointSample 0 src dst).2.val c = src.grid.val c ∧
      (resampleToMatch pointSample 0 src dst).2.act c = true := by
  have hout : (resampleToMatch pointSample 0 src dst).2 =
      transformGrid true Aff.id Aff.id 0 pointSample src.grid := by
    unfold resampleToMatch
    simp only
    rw [hx, aff_comp_inv src.xform hd]
  rw [hout]
  refine ⟨?_, ?_⟩
  · unfold DGrid.activeCount SGrid.activeCount
    rw [transformGrid_id_activeSet src.grid hwf]
  · intro c hoc
    exact ⟨transformGrid_id_val src.grid hwf c hoc,
      by rw [transformGrid_id_act src.grid hwf c]; exact hoc⟩

/-- Witness for C6: the 8000-voxel cube grid with the identity transform
resamples into an identical copy; the voxel (5,5,5) keeps value one. -/
theorem C6_identity_resample_witness :
    (resampleToMatch pointSample 0 c4srcX ⟨Aff.id, ⟨0, []⟩⟩).2.activeCount
      = c4src.activeCount ∧
    (resampleToMatch pointSample 0 c4srcX ⟨Aff.id, ⟨0, []⟩⟩).2.val (5, 5, 5)
      = c4src.val (5, 5, 5) ∧
    (resampleToMatch pointSample 0 c4srcX ⟨Aff.id, ⟨0, []⟩⟩).2.act (5, 5, 5) = true := by
  have h := C6_identity_resample c4srcX ⟨Aff.id, ⟨0, []⟩⟩ rfl (by decide)
    ⟨by decide, List.pairwise_singleton _ _⟩
  have h2 := h.2 (5, 5, 5) (by decide)
  exact ⟨h.1, h2.1, h2.2⟩

theorem dilated_vs_spec (fwd : Aff) (r : ℕ) (b : CoordBBox) :
    (dilatedBox fwd r b).lo.1 = (specRadiusBox fwd r b).lo.1 - 1 ∧
    (dilatedBox fwd r b).lo.2.1 = (specRadiusBox fwd r b).lo.2.1 - 1 ∧
    (dilatedBox fwd r b).lo.2.2 = (specRadiusBox fwd r b).lo.2.2 - 1 ∧
    (dilatedBox fwd r b).hi.1 = (specRadiusBox fwd r b).hi.1 + 1 ∧
    (dilatedBox fwd r b).hi.2.1 = (specRadiusBox fwd r b).hi.2.1 + 1 ∧
    (dilatedBox fwd r b).hi.2.2 = (specRadiusBox fwd r b).hi.2.2 + 1 := by
  unfold dilatedBox specRadiusBox addC
  refine ⟨?_, ?_, ?_, ?_, ?_, ?_⟩ <;> simp only <;> ring

theorem dgrid_bbox_within {V : Type} (g : DGrid V) (S : Finset Coord)
    (hset : g.activeSet = S) (lo1 lo2 lo3 hi1 hi2 hi3 : ℤ)
    (m1 m2 m3 m4 m5 m6 : Coord)
    (h1 : m1 ∈ S) (h2 : m2 ∈ S) (h3 : m3 ∈ S) (h4 : m4 ∈ S) (h5 : m5 ∈ S) (h6 : m6 ∈ S)
    (hb1 : m1.1 ≤ lo1 + 1) (hb2 : hi1 - 1 ≤ m2.1)
    (hb3 : m3.2.1 ≤ lo2 + 1) (hb4 : hi2 - 1 ≤ m4.2.1)
    (hb5 : m5.2.2 ≤ lo3 + 1) (hb6 : hi3 - 1 ≤ m6.2.2)
    (hlow : ∀ c ∈ S, lo1 - 1 ≤ c.1 ∧ lo2 - 1 ≤ c.2.1 ∧ lo3 - 1 ≤ c.2.2 ∧
      c.1 ≤ hi1 + 1 ∧ c.2.1 ≤ hi2 + 1 ∧ c.2.2 ≤ hi3 + 1) :
    ∃ bb : CoordBBox, g.activeBBox = some bb ∧ |bb.lo.1 - lo1| ≤ 1 ∧
      |bb.lo.2.1 - lo2| ≤ 1 ∧ |bb.lo.2.2 - lo3| ≤ 1 ∧ |bb.hi.1 - hi1| ≤ 1 ∧
      |bb.hi.2.1 - hi2| ≤ 1 ∧ |bb.hi.2.2 - hi3| ≤ 1 := by
  subst hset
  have hne : g.activeSet.Nonempty := ⟨m1, h1⟩
  unfold DGrid.activeBBox
  rw [dif_pos hne]
  refine ⟨setBBox _ hne, rfl, ?_, ?_, ?_, ?_, ?_, ?_⟩
  all_goals rw [abs_le]
  all_goals unfold setBBox
  all_goals simp only
  · have hup := Finset.inf'_le (fun c : Coord => c.1) h1
    have hlo := Finset.le_inf' hne (fun c : Coord => c.1) (fun c hc => (hlow c hc).1)
    constructor <;> omega
  · have hup := Finset.inf'_le (fun c : Coord => c.2.1) h3
    have hlo := Finset.le_inf' hne (fun c : Coord => c.2.1) (fun c hc => (hlow c hc).2.1)
    constructor <;> omega
  · have hup := Finset.inf'_le (fun c : Coord => c.2.2) h5
    have hlo := Finset.le_inf' hne (fun c : Coord => c.2.2) (fun c hc => (hlow c hc).2.2.1)
    constructor <;> omega
  · have hlo := Finset.le_sup' (fun c : Coord => c.1) h2
    have hup := Finset.sup'_le hne (fun c : Coord => c.1) (fun c hc => (hlow c hc).2.2.2.1)
    constructor <;> omega
  · have hlo := Finset.le_sup' (fun c : Coord => c.2.1) h4
    have hup := Finset.sup'_le hne (fun c : Coord => c.2.1)
      (fun c hc => (hlow c hc).2.2.2.2.1)
    constructor <;> omega
  · have hlo := Finset.le_sup' (fun c : Coord => c.2.2) h6
    have hup := Finset.sup'_le hne (fun c : Coord => c.2.2)
      (fun c hc => (hlow c hc).2.2.2.2.2)
    constructor <;> omega

/-- C1: for every affine map, stencil radius, value type and
near-activity-sensitive sampler (the point, box, triquadratic and integer
box samplers are proved near-activity-sensitive, with reaches 1/2, 1, 1
and 1), transforming the 8-corner cube grid (with its interior tile,
active or not) yields an output whose active bounding box matches the
test's expected box — the componentwise min/max of the 8 transformed
corners of the source's active bounding box, dilated by the stencil radius
per face — within one voxel of rounding tolerance per component.  The
hypotheses are pure input-side map geometry: near each face of the
expected box, some cell of the write region pulls back under the inverse
map to within the sampler's reach of one of the eight active source
corners (which the tested transforms realize at the mapped corners), and
any such cell covered by the mapped interior tile has the tile active; the
activity of the written cells is derived from the corners through the
sampler, not assumed. -/
theorem C1_bbox_preserved {V : Type} [DecidableEq V]
    (sample : (Coord → V) → (Coord → Bool) → Vec3 → V × Bool) (r : ℕ) (d : ℚ)
    (hna : NearActive sample d) (fwd inv : Aff) (z o tw : V) (ta : Bool)
    (hx1 : ∃ k c : Coord, k ∈ cubeCorners ∧
      |((k.1 : ℚ) - (inv.apply (c2v c)).1)| < d ∧
      |((k.2.1 : ℚ) - (inv.apply (c2v c)).2.1)| < d ∧
      |((k.2.2 : ℚ) - (inv.apply (c2v c)).2.2)| < d ∧
      ((mappedBox fwd ⟨(8, 8, 8), (15, 15, 15)⟩).mem c = true → ta = true) ∧
      (dilatedBox fwd r ⟨(0, 0, 0), (20, 20, 20)⟩).mem c = true ∧
      c.1 ≤ (specRadiusBox fwd r ⟨(0, 0, 0), (20, 20, 20)⟩).lo.1 + 1)
    (hx2 : ∃ k c : Coord, k ∈ cubeCorners ∧
      |((k.1 : ℚ) - (inv.apply (c2v c)).1)| < d ∧
      |((k.2.1 : ℚ) - (inv.apply (c2v c)).2.1)| < d ∧
      |((k.2.2 : ℚ) - (inv.apply (c2v c)).2.2)| < d ∧
      ((mappedBox fwd ⟨(8, 8, 8), (15, 15, 15)⟩).mem c = true → ta = true) ∧
      (dilatedBox fwd r ⟨(0, 0, 0), (20, 20, 20)⟩).mem c = true ∧
      (specRadiusBox fwd r ⟨(0, 0, 0), (20, 20, 20)⟩).hi.1 - 1 ≤ c.1)
    (hy1 : ∃ k c : Coord, k ∈ cubeCorners ∧
      |((k.1 : ℚ) - (inv.apply (c2v c)).1)| < d ∧
      |((k.2.1 : ℚ) - (inv.apply (c2v c)).2.1)| < d ∧
      |((k.2.2 : ℚ) - (inv.apply (c2v c)).2.2)| < d ∧
      ((mappedBox fwd ⟨(8, 8, 8), (15, 15, 15)⟩).mem c = true → ta = true) ∧
      (dilatedBox fwd r ⟨(0, 0, 0), (20, 20, 20)⟩).mem c = true ∧
      c.2.1 ≤ (specRadiusBox fwd r ⟨(0, 0, 0), (20, 20, 20)⟩).lo.2.1 + 1)
    (hy2 : ∃ k c : Coord, k ∈ cubeCorners ∧
      |((k.1 : ℚ) - (inv.apply (c2v c)).1)| < d ∧
      |((k.2.1 : ℚ) - (inv.apply (c2v c)).2.1)| < d ∧
      |((k.2.2 : ℚ) - (inv.apply (c2v c)).2.2)| < d ∧
      ((mappedBox fwd ⟨(8, 8, 8), (15, 15, 15)⟩).mem c = true → ta = true) ∧
      (dilatedBox fwd r ⟨(0, 0, 0), (20, 20, 20)⟩).mem c = true ∧
      (specRadiusBox fwd r ⟨(0, 0, 0), (20, 20, 20)⟩).hi.2.1 - 1 ≤ c.2.1)
    (hz1 : ∃ k c : Coord, k ∈ cubeCorners ∧
      |((k.1 : ℚ) - (inv.apply (c2v c)).1)| < d ∧
      |((k.2.1 : ℚ) - (inv.apply (c2v c)).2.1)| < d ∧
      |((k.2.2 : ℚ) - (inv.apply (c2v c)).2.2)| < d ∧
      ((mappedBox fwd ⟨(8, 8, 8), (15, 15, 15)⟩).mem c = true → ta = true) ∧
      (dilatedBox fwd r ⟨(0, 0, 0), (20, 20, 20)⟩).mem c = true ∧
      c.2.2 ≤ (specRadiusBox fwd r ⟨(0, 0, 0), (20, 20, 20)⟩).lo.2.2 + 1)
    (hz2 : ∃ k c : Coord, k ∈ cubeCorners ∧
      |((k.1 : ℚ) - (inv.apply (c2v c)).1)| < d ∧
      |((k.2.1 : ℚ) - (inv.apply (c2v c)).2.1)| < d ∧
      |((k.2.2 : ℚ) - (inv.apply (c2v c)).2.2)| < d ∧
      ((mappedBox fwd ⟨(8, 8, 8), (15, 15, 15)⟩).mem c = true → ta = true) ∧
      (dilatedBox fwd r ⟨(0, 0, 0), (20, 20, 20)⟩).mem c = true ∧
      (specRadiusBox fwd r ⟨(0, 0, 0), (20, 20, 20)⟩).hi.2.2 - 1 ≤ c.2.2) :
    ∃ bb : CoordBBox,
      (transformGrid true fwd inv r sample (cornerSrc z o tw ta)).activeBBox = some bb ∧
      |bb.lo.1 - (specRadiusBox fwd r ⟨(0, 0, 0), (20, 20, 20)⟩).lo.1| ≤ 1 ∧
      |bb.lo.2.1 - (specRadiusBox fwd r ⟨(0, 0, 0), (20, 20, 20)⟩).lo.2.1| ≤ 1 ∧
      |bb.lo.2.2 - (specRadiusBox fwd r ⟨(0, 0, 0), (20, 20, 20)⟩).lo.2.2| ≤ 1 ∧
      |bb.hi.1 - (specRadiusBox fwd r ⟨(0, 0, 0), (20, 20, 20)⟩).hi.1| ≤ 1 ∧
      |bb.hi.2.1 - (specRadiusBox fwd r ⟨(0, 0, 0), (20, 20, 20)⟩).hi.2.1| ≤ 1 ∧
      |bb.hi.2.2 - (specRadiusBox fwd r ⟨(0, 0, 0), (20, 20, 20)⟩).hi.2.2| ≤ 1 := by
  have hbb := cornerSrc_activeBBox z o tw ta
  have hset : (transformGrid true fwd inv r sample (cornerSrc z o tw ta)).activeSet =
      (dilatedBox fwd r ⟨(0, 0, 0), (20, 20, 20)⟩).cells.filter
        (fun c => c1ActiveWrite sample fwd inv z o tw ta c = true) := by
    unfold DGrid.activeSet
    rw [transformGrid_box_eq true fwd inv r sample _ _ hbb]
    apply Finset.filter_congr
    intro c hc
    rw [transformGrid_act_eq true fwd inv r sample _ _ hbb c, if_pos (mem_cells.mp hc)]
    exact Iff.rfl
  obtain ⟨k1, m1, hc1, e11, e12, e13, t1, hm1, hb1⟩ := hx1
  obtain ⟨k2, m2, hc2, e21, e22, e23, t2, hm2, hb2⟩ := hx2
  obtain ⟨k3, m3, hc3, e31, e32, e33, t3, hm3, hb3⟩ := hy1
  obtain ⟨k4, m4, hc4, e41, e42, e43, t4, hm4, hb4⟩ := hy2
  obtain ⟨k5, m5, hc5, e51, e52, e53, t5, hm5, hb5⟩ := hz1
  obtain ⟨k6, m6, hc6, e61, e62, e63, t6, hm6, hb6⟩ := hz2
  have hw1 := cellWrite_active sample d hna fwd inv z o tw ta m1 k1 hc1 e11 e12 e13 t1
  have hw2 := cellWrite_active sample d hna fwd inv z o tw ta m2 k2 hc2 e21 e22 e23 t2
  have hw3 := cellWrite_active sample d hna fwd inv z o tw ta m3 k3 hc3 e31 e32 e33 t3
  have hw4 := cellWrite_active sample d hna fwd inv z o tw ta m4 k4 hc4 e41 e42 e43 t4
  have hw5 := cellWrite_active sample d hna fwd inv z o tw ta m5 k5 hc5 e51 e52 e53 t5
  have hw6 := cellWrite_active sample d hna fwd inv z o tw ta m6 k6 hc6 e61 e62 e63 t6
  obtain ⟨d1, d2, d3, d4, d5, d6⟩ := dilated_vs_spec fwd r ⟨(0, 0, 0), (20, 20, 20)⟩
  apply dgrid_bbox_within _ _ hset _ _ _ _ _ _ m1 m2 m3 m4 m5 m6
  · exact Finset.mem_filter.mpr ⟨mem_cells.mpr hm1, hw1⟩
  · exact Finset.mem_filter.mpr ⟨mem_cells.mpr hm2, hw2⟩
  · exact Finset.mem_filter.mpr ⟨mem_cells.mpr hm3, hw3⟩
  · exact Finset.mem_filter.mpr ⟨mem_cells.mpr hm4, hw4⟩
  · exact Finset.mem_filter.mpr ⟨mem_cells.mpr hm5, hw5⟩
  · exact Finset.mem_filter.mpr ⟨mem_cells.mpr hm6, hw6⟩
  · exact hb1
  · exact hb2
  · exact hb3
  · exact hb4
  · exact hb5
  · exact hb6
  · intro c hc
    have hmc := (mem_iff _ _).mp (mem_cells.mp (Finset.mem_filter.mp hc).1)
    refine ⟨?_, ?_, ?_, ?_, ?_, ?_⟩ <;> omega

/-- Witness for C1: under scale (10, 4, 7.5) and translation (-5, 0, 10),
the claim is discharged at four sampler/value-type instances — point over
rationals (active tile), box over rationals (active tile), triquadratic
over rationals (inactive tile) and integer box over integers (active
tile); in each the active bounding box of the output matches the expected
box within one voxel per component, with the face conditions realized by
destination cells near the mapped corners. -/
theorem C1_bbox_preserved_witness :
    (∃ bb : CoordBBox,
      (transformGrid true c1TestFwd c1TestInv 0 pointSample
        (cornerSrc (0 : ℚ) 1 2 true)).activeBBox = some bb ∧
      |bb.lo.1 - (specRadiusBox c1TestFwd 0 ⟨(0, 0, 0), (20, 20, 20)⟩).lo.1| ≤ 1 ∧
      |bb.lo.2.1 - (specRadiusBox c1TestFwd 0 ⟨(0, 0, 0), (20, 20, 20)⟩).lo.2.1| ≤ 1 ∧
      |bb.lo.2.2 - (specRadiusBox c1TestFwd 0 ⟨(0, 0, 0), (20, 20, 20)⟩).lo.2.2| ≤ 1 ∧
      |bb.hi.1 - (specRadiusBox c1TestFwd 0 ⟨(0, 0, 0), (20, 20, 20)⟩).hi.1| ≤ 1 ∧
      |bb.hi.2.1 - (specRadiusBox c1TestFwd 0 ⟨(0, 0, 0), (20, 20, 20)⟩).hi.2.1| ≤ 1 ∧
      |bb.hi.2.2 - (specRadiusBox c1TestFwd 0 ⟨(0, 0, 0), (20, 20, 20)⟩).hi.2.2| ≤ 1) ∧
    (∃ bb : CoordBBox,
      (transformGrid true c1TestFwd c1TestInv 1 boxSample
        (cornerSrc (0 : ℚ) 1 2 true)).activeBBox = some bb ∧
      |bb.lo.1 - (specRadiusBox c1TestFwd 1 ⟨(0, 0, 0), (20, 20, 20)⟩).lo.1| ≤ 1 ∧
      |bb.lo.2.1 - (specRadiusBox c1TestFwd 1 ⟨(0, 0, 0), (20, 20, 20)⟩).lo.2.1| ≤ 1 ∧
      |bb.lo.2.2 - (specRadiusBox c1TestFwd 1 ⟨(0, 0, 0), (20, 20, 20)⟩).lo.2.2| ≤ 1 ∧
      |bb.hi.1 - (specRadiusBox c1TestFwd 1 ⟨(0, 0, 0), (20, 20, 20)⟩).hi.1| ≤ 1 ∧
      |bb.hi.2.1 - (specRadiusBox c1TestFwd 1 ⟨(0, 0, 0), (20, 20, 20)⟩).hi.2.1| ≤ 1 ∧
      |bb.hi.2.2 - (specRadiusBox c1TestFwd 1 ⟨(0, 0, 0), (20, 20, 20)⟩).hi.2.2| ≤ 1) ∧
    (∃ bb : CoordBBox,
      (transformGrid true c1TestFwd c1TestInv 2 quadSample
        (cornerSrc (0 : ℚ) 1 2 false)).activeBBox = some bb ∧
      |bb.lo.1 - (specRadiusBox c1TestFwd 2 ⟨(0, 0, 0), (20, 20, 20)⟩).lo.1| ≤ 1 ∧
      |bb.lo.2.1 - (specRadiusBox c1TestFwd 2 ⟨(0, 0, 0), (20, 20, 20)⟩).lo.2.1| ≤ 1 ∧
      |bb.lo.2.2 - (specRadiusBox c1TestFwd 2 ⟨(0, 0, 0), (20, 20, 20)⟩).lo.2.2| ≤ 1 ∧
      |bb.hi.1 - (specRadiusBox c1TestFwd 2 ⟨(0, 0, 0), (20, 20, 20)⟩).hi.1| ≤ 1 ∧
      |bb.hi.2.1 - (specRadiusBox c1TestFwd 2 ⟨(0, 0, 0), (20, 20, 20)⟩).hi.2.1| ≤ 1 ∧
      |bb.hi.2.2 - (specRadiusBox c1TestFwd 2 ⟨(0, 0, 0), (20, 20, 20)⟩).hi.2.2| ≤ 1) ∧
    (∃ bb : CoordBBox,
      (transformGrid true c1TestFwd c1TestInv 1 intBoxSample
        (cornerSrc (0 : ℤ) 1 2 true)).activeBBox = some bb ∧
      |bb.lo.1 - (specRadiusBox c1TestFwd 1 ⟨(0, 0, 0), (20, 20, 20)⟩).lo.1| ≤ 1 ∧
      |bb.lo.2.1 - (specRadiusBox c1TestFwd 1 ⟨(0, 0, 0), (20, 20, 20)⟩).lo.2.1| ≤ 1 ∧
      |bb.lo.2.2 - (specRadiusBox c1TestFwd 1 ⟨(0, 0, 0), (20, 20, 20)⟩).lo.2.2| ≤ 1 ∧
      |bb.hi.1 - (specRadiusBox c1TestFwd 1 ⟨(0, 0, 0), (20, 20, 20)⟩).hi.1| ≤ 1 ∧
      |bb.hi.2.1 - (specRadiusBox c1TestFwd 1 ⟨(0, 0, 0), (20, 20, 20)⟩).hi.2.1| ≤ 1 ∧
      |bb.hi.2.2 - (specRadiusBox c1TestFwd 1 ⟨(0, 0, 0), (20, 20, 20)⟩).hi.2.2| ≤ 1) :=
  ⟨C1_bbox_preserved pointSample 0 (1/2) pointSample_nearActive c1TestFwd c1TestInv
      (0 : ℚ) 1 2 true
      ⟨(0, 0, 0), (-5, 0, 10), by decide, by decide, by decide, by decide, by decide,
        by decide, by decide⟩
      ⟨(20, 20, 20), (195, 80, 160), by decide, by decide, by decide, by decide, by decide,
        by decide, by decide⟩
      ⟨(0, 0, 0), (-5, 0, 10), by decide, by decide, by decide, by decide, by decide,
        by decide, by decide⟩
      ⟨(20, 20, 20), (195, 80, 160), by decide, by decide, by decide, by decide, by decide,
        by decide, by decide⟩
      ⟨(0, 0, 0), (-5, 0, 10), by decide, by decide, by decide, by decide, by decide,
        by decide, by decide⟩
      ⟨(20, 20, 20), (195, 80, 160), by decide, by decide, by decide, by decide, by decide,
        by decide, by decide⟩,
   C1_bbox_preserved boxSample 1 1 boxSample_nearActive c1TestFwd c1TestInv
      (0 : ℚ) 1 2 true
      ⟨(0, 0, 0), (-5, 0, 10), by decide, by decide, by decide, by decide, by decide,
        by decide, by decide⟩
      ⟨(20, 20, 20), (195, 80, 160), by decide, by decide, by decide, by decide, by decide,
        by decide, by decide⟩
      ⟨(0, 0, 0), (-5, 0, 10), by decide, by decide, by decide, by decide, by decide,
        by decide, by decide⟩
      ⟨(20, 20, 20), (195, 80, 160), by decide, by decide, by decide, by decide, by decide,
        by decide, by decide⟩
      ⟨(0, 0, 0), (-5, 0, 10), by decide, by decide, by decide, by decide, by decide,
        by decide, by decide⟩
      ⟨(20, 20, 20), (195, 80, 160), by decide, by decide, by decide, by decide, by decide,
        by decide, by decide⟩,
   C1_bbox_preserved quadSample 2 1 quadSample_nearActive c1TestFwd c1TestInv
      (0 : ℚ) 1 2 false
      ⟨(0, 0, 0), (-6, 0, 10), by decide, by decide, by decide, by decide, by decide,
        by decide, by decide⟩
      ⟨(20, 20, 20), (196, 80, 160), by decide, by decide, by decide, by decide, by decide,
        by decide, by decide⟩
      ⟨(0, 0, 0), (-5, -1, 10), by decide, by decide, by decide, by decide, by decide,
        by decide, by decide⟩
      ⟨(20, 20, 20), (195, 81, 160), by decide, by decide, by decide, by decide, by decide,
        by decide, by decide⟩
      ⟨(0, 0, 0), (-5, 0, 9), by decide, by decide, by decide, by decide, by decide,
        by decide, by decide⟩
      ⟨(20, 20, 20), (195, 80, 161), by decide, by decide, by decide, by decide, by decide,
        by decide, by decide⟩,
   C1_bbox_preserved intBoxSample 1 1 intBoxSample_nearActive c1TestFwd c1TestInv
      (0 : ℤ) 1 2 true
      ⟨(0, 0, 0), (-5, 0, 10), by decide, by decide, by decide, by decide, by decide,
        by decide, by decide⟩
      ⟨(20, 20, 20), (195, 80, 160), by decide, by decide, by decide, by decide, by decide,
        by decide, by decide⟩
      ⟨(0, 0, 0), (-5, 0, 10), by decide, by decide, by decide, by decide, by decide,
        by decide, by decide⟩
      ⟨(20, 20, 20), (195, 80, 160), by decide, by decide, by decide, by decide, by decide,
        by decide, by decide⟩
      ⟨(0, 0, 0), (-5, 0, 10), by decide, by decide, by decide, by decide, by decide,
        by decide, by decide⟩
      ⟨(20, 20, 20), (195, 80, 160), by decide, by decide, by decide, by decide, by decide,
        by decide, by decide⟩⟩
